import Mathlib

/-!
# Deadline-aware elastic invocation scheduler (pkg/driver/invokefunc/infless.go)

A shallow embedding of the replica allocation policy and of the job loop
controller `INFlessInvoke`, followed by the properties proved about them.

Go's `int` is the 64-bit two's-complement integer: values are modelled as `Int`
and every arithmetic result is reduced with `wrapInt`.  A run-time panic
(division by zero, index out of range) is the `none` result of an `Option`.
-/

namespace Invitro

/-! ## Machine integers -/

/-- Largest value of Go's 64-bit `int`. -/
def maxInt : Int := 9223372036854775807

/-- Smallest value of Go's 64-bit `int`. -/
def minInt : Int := -9223372036854775808

/-- Two's-complement reduction of a mathematical integer to Go's 64-bit `int`. -/
def wrapInt (x : Int) : Int :=
  (x + 9223372036854775808) % 18446744073709551616 - 9223372036854775808

/-- Go's `a + b` on `int`. -/
def goAdd (a b : Int) : Int := wrapInt (a + b)

/-- Go's `a * b` on `int`. -/
def goMul (a b : Int) : Int := wrapInt (a * b)

/-- Go's `a / b` on `int`: the quotient truncated toward zero; a zero divisor is a
run-time panic. -/
def goDiv (a b : Int) : Option Int :=
  if b = 0 then none else some (wrapInt (Int.tdiv a b))

/-! ## Replica allocation policy -/

/-- The struct `SpeedInfo`: iterations completed and the elapsed runtime observed. -/
structure SpeedInfo where
  iteration : Int
  runtime : Int
deriving DecidableEq, Repr

/-- The loop of `prepareLocalGPUSet`: `for baseGPU <= upperboundReplicas`, appending
`baseGPU` and doubling it.  `fuel` bounds the number of evaluations of the loop
condition; `none` means the bound was reached before the loop ended. -/
def prepareLocalGPUSetLoop (upperboundReplicas : Int) : Nat → Int → List Int → Option (List Int)
  | 0, _, _ => none
  | fuel + 1, baseGPU, localGPUSet =>
    if baseGPU ≤ upperboundReplicas then
      prepareLocalGPUSetLoop upperboundReplicas fuel (goMul baseGPU 2) (localGPUSet ++ [baseGPU])
    else
      some localGPUSet

/-- `prepareLocalGPUSet(upperboundReplicas, maxGPUPerNode)`; the second argument is
unused by the source. -/
def prepareLocalGPUSet (fuel : Nat) (upperboundReplicas _maxGPUPerNode : Int) :
    Option (List Int) :=
  prepareLocalGPUSetLoop upperboundReplicas fuel 1 []

/-- `lowerboundReplicasToDeadline(remainingService, deadline, GPUSet)`: `none` is the
division-by-zero panic. -/
def lowerboundReplicasToDeadline (remainingService deadline : Int) : List Int → Option Int
  | [] => some (-1)
  | replicas :: rest =>
    match goDiv remainingService replicas with
    | none => none
    | some jct =>
      if jct ≤ deadline then some replicas
      else lowerboundReplicasToDeadline remainingService deadline rest

/-- The completion time `jct` computed in the body of the loop of
`lowerboundReplicasToDeadlineByProfileSpeedMatrix` for one replica count; the map
`profileSpeedMatrix` is a partial function on replica counts. -/
def profileJct (GPUIteration defaultRuntime : Int) (profileSpeedMatrix : Int → Option SpeedInfo)
    (replicas : Int) : Option Int :=
  match profileSpeedMatrix replicas with
  | some speedInfo =>
    match goDiv GPUIteration speedInfo.iteration with
    | none => none
    | some q => goDiv (goMul q speedInfo.runtime) replicas
  | none => goDiv (goMul GPUIteration defaultRuntime) replicas

/-- The range loop of `lowerboundReplicasToDeadlineByProfileSpeedMatrix` over the
remaining entries, with the whole `GPUSet` kept for `GPUSet[len(GPUSet)-1]`. -/
def profileScan (GPUIteration defaultRuntime : Int) (profileSpeedMatrix : Int → Option SpeedInfo)
    (deadline : Int) (GPUSet : List Int) : List Int → Option Int
  | [] => some 1
  | replicas :: rest =>
    match profileJct GPUIteration defaultRuntime profileSpeedMatrix replicas with
    | none => none
    | some jct =>
      if jct ≤ deadline then
        match GPUSet.getLast? with
        | none => none
        | some last => some (min (goAdd replicas 1) last)
      else profileScan GPUIteration defaultRuntime profileSpeedMatrix deadline GPUSet rest

/-- `lowerboundReplicasToDeadlineByProfileSpeedMatrix(GPUIteration, defaultRuntime,
profileSpeedMatrix, deadline, GPUSet)`: `none` is a run-time panic. -/
def lowerboundReplicasToDeadlineByProfileSpeedMatrix (GPUIteration defaultRuntime : Int)
    (profileSpeedMatrix : Int → Option SpeedInfo) (deadline : Int) (GPUSet : List Int) :
    Option Int :=
  profileScan GPUIteration defaultRuntime profileSpeedMatrix deadline GPUSet GPUSet

/-! ## Job loop controller: data -/

/-- The reply of one `Execute` call (`proto.FaasReply`), the fields the controller reads. -/
structure FaasReply where
  Message : String
  DurationInMicroSec : Nat
  GpuMemoryInMebiBytes : Nat
deriving DecidableEq, Repr

/-- The zero value of `proto.FaasReply`, as produced by `make([]proto.FaasReply, n)`. -/
def FaasReply.zero : FaasReply := ⟨"", 0, 0⟩

/-- The batched scheduler reply (`mc.JobSchedReply`): parallel arrays of job IDs and of
granted replica counts (unsigned, like the request's `Replica` field). -/
structure JobSchedReply where
  InvocationIDs : List String
  Replicas : List Nat
deriving DecidableEq, Repr

/-- What the controller uses of a `common.Function`: `gpu` is the value of
`strconv.Atoi(strings.Split(function.Name, "-gpu-")[1])` (`none` when the split has no
second part, an index panic) and `dialErr` tells whether `grpc.DialContext` on its
endpoint returns an error. -/
structure Function where
  gpu : Option Int
  dialErr : Bool
deriving DecidableEq, Repr

/-- The arguments of `INFlessInvoke`, the package-level configuration it reads and the
helpers it calls that are declared outside infless.go (`findIndex`,
`extractInstanceName`, `common.Kib2Mib`, and the value `localGPUSet` returned by
`prepareRangeGPUSet(common.TotalGPUs, common.GPUPerNode)`). -/
structure Job where
  functions : List Function
  invocationID : String
  Runtime : Int
  Iterations : Int
  BatchSize : Int
  Deadline : Int
  TotalGPUs : Int
  BszPerDevice : Int
  localGPUSet : List Int
  findIndex : List Int → Int → Int
  extractInstanceName : String → String
  Kib2Mib : Nat → Nat

/-- The `mc.ExecutionRecord` of a job, without its two wall-clock fields
(`StartTime`, `ResponseTime`). -/
structure ExecutionRecord where
  RequestedDuration : Nat
  ActualDuration : Nat
  Instance : String
  Deadline : Int
  BatchSize : Int
  Iterations : Int
  ActualMemoryUsage : Nat
  ConnectionTimeout : Bool
  MemoryAllocationTimeout : Bool
deriving DecidableEq, Repr

/-- The iteration ledger `mc.JobExecutionRecord`: parallel arrays, one position per
registered round. -/
structure JobExecutionRecord where
  InvocationID : String
  StartTime : List Int
  Replica : List Int
  GpuCount : List Int
  ComputeTime : List Int
  ExecutionTime : List Int
  StartIteration : List Int
  EndIteration : List Int
  TotalIteration : List Int
  BatchSize : List Int
deriving DecidableEq, Repr

/-- Number of entries of the ledger. -/
def JobExecutionRecord.entries (j : JobExecutionRecord) : Nat := j.StartIteration.length

/-- The process-wide job-state tables behind `setValue`/`deleteValue`,
`setSchedJobCount`/`removeSchedJobCount` and
`setJobUsedResource`/`removeJobUsedResource`. -/
structure Registry where
  value : String → Option Int
  schedJobCount : String → Int
  usedResource : String → Option Int

/-- Modelled from the spec: `setValue` (declared outside infless.go) registers the job
state, the claimed replica count of a job ID. -/
def setValue (r : Registry) (key : String) (v : Int) : Registry :=
  { r with value := fun k => if k = key then some v else r.value k }

/-- Modelled from the spec: `deleteValue` (declared outside infless.go) removes the
entry of a job ID; on an absent job it changes nothing. -/
def deleteValue (r : Registry) (key : String) : Registry :=
  { r with value := fun k => if k = key then none else r.value k }

/-- Modelled from the spec: `setSchedJobCount` (declared outside infless.go) increments
the pending-negotiation marker of a job. -/
def setSchedJobCount (r : Registry) (key : String) : Registry :=
  { r with schedJobCount := fun k => if k = key then r.schedJobCount k + 1 else r.schedJobCount k }

/-- Modelled from the spec: `removeSchedJobCount` (declared outside infless.go)
decrements the pending-negotiation marker of a job. -/
def removeSchedJobCount (r : Registry) (key : String) : Registry :=
  { r with schedJobCount := fun k => if k = key then r.schedJobCount k - 1 else r.schedJobCount k }

/-- Modelled from the spec: `setJobUsedResource` (declared outside infless.go) records
the replica count a job presently claims. -/
def setJobUsedResource (r : Registry) (key : String) (v : Int) : Registry :=
  { r with usedResource := fun k => if k = key then some v else r.usedResource k }

/-- Modelled from the spec: `removeJobUsedResource` (declared outside infless.go) drops
the replica count a job presently claims. -/
def removeJobUsedResource (r : Registry) (key : String) : Registry :=
  { r with usedResource := fun k => if k = key then none else r.usedResource k }

/-- Modelled from the spec: `registerJobRecord` (declared outside infless.go) appends one
entry to the ledger: start time, compute time, wall time, replica count, GPU count,
start and end iteration, total iterations and batch size, in the order of its
arguments. -/
def registerJobRecord (j : JobExecutionRecord) (startTime computeTime executionTime : Int)
    (replica gpuCount startIteration endIteration totalIteration batchSize : Int) :
    JobExecutionRecord :=
  { j with
    StartTime := j.StartTime ++ [startTime]
    ComputeTime := j.ComputeTime ++ [computeTime]
    ExecutionTime := j.ExecutionTime ++ [executionTime]
    Replica := j.Replica ++ [replica]
    GpuCount := j.GpuCount ++ [gpuCount]
    StartIteration := j.StartIteration ++ [startIteration]
    EndIteration := j.EndIteration ++ [endIteration]
    TotalIteration := j.TotalIteration ++ [totalIteration]
    BatchSize := j.BatchSize ++ [batchSize] }

/-- The observable actions of the controller, in program order (the `Execute` calls of
one round, which run concurrently, are listed by replica index). -/
inductive Event
  | negotiate
  | sleepInterval
  | execute (replicaID : Nat)
  | sleepBackoff (milliseconds : Int)
deriving DecidableEq, Repr

/-- What the outside world supplies for one pass through the block `onemore`: the reply
read from `jobSchedInputChannel`, the result of `Execute` for each replica index
(`none` when `err != nil`), and the two clock readings `onceCallStart.UnixMicro()` and
`time.Since(onceCallStart).Milliseconds()`. -/
structure RoundInput where
  reply : JobSchedReply
  calls : Nat → Option FaasReply
  onceCallStart : Int
  sinceCallStart : Int

/-- The local variables of `INFlessInvoke` that outlive one round, the job-state
tables, and the actions performed so far. -/
structure State where
  record : ExecutionRecord
  jobRecord : JobExecutionRecord
  registry : Registry
  responses : List FaasReply
  curIter : Int
  waitBackFill : Int
  minReplicas : Int
  trace : List Event

/-- How one pass through `onemore` and the round after it ends. -/
inductive RoundResult
  | rejected (s : State)
  | zeroGrant (s : State)
  | failed (s : State)
  | ok (s : State)
  | panicked (s : State)

/-- How a call of `INFlessInvoke` ends on a finite sequence of replies: it returns its
boolean, it is still waiting on `jobSchedInputChannel` after the last reply, or it
stops with a run-time panic. -/
inductive Outcome
  | returned (success : Bool) (s : State)
  | blocked (s : State)
  | panicked (s : State)

/-- The state in which a call ended. -/
def Outcome.state : Outcome → State
  | .returned _ s => s
  | .blocked s => s
  | .panicked s => s

/-- The boolean returned by a call that returned. -/
def Outcome.success? : Outcome → Option Bool
  | .returned success _ => some success
  | _ => none

/-- The state in which a pass through `onemore` ended. -/
def RoundResult.state : RoundResult → State
  | .rejected s => s
  | .zeroGrant s => s
  | .failed s => s
  | .ok s => s
  | .panicked s => s

/-- Whether a pass through `onemore` ended with `goto onemore`: a zero grant or a failed
round. -/
def RoundResult.isRetry : RoundResult → Bool
  | .zeroGrant _ => true
  | .failed _ => true
  | _ => false

/-- Whether an action is an `Execute` call. -/
def Event.isExecute : Event → Bool
  | .execute _ => true
  | _ => false

/-- Number of zero-grant sleeps among the actions that precede the first `Execute`
call. -/
def sleepsBeforeFirstExecute (trace : List Event) : Nat :=
  (trace.takeWhile (fun e => !e.isExecute)).count Event.sleepInterval

/-- The actions of `n` consecutive zero-grant passes through `onemore`: a negotiation
and a sleep each. -/
def zeroGrantTrace : Nat → List Event
  | 0 => []
  | n + 1 => Event.negotiate :: Event.sleepInterval :: zeroGrantTrace n

/-! ## Job loop controller: code -/

/-- Go's `xs[i]` for an `int` index: `none` is the index-out-of-range panic. -/
def goIndex {α : Type} (xs : List α) (i : Int) : Option α :=
  if 0 ≤ i then xs.get? i.toNat else none

/-- The loop `for idx, jobInvocationID := range jobSchedReply.InvocationIDs` of the
block `onemore`, from position `idx` with the current value of `minReplicas`. -/
def scanReply (invocationID : String) (Replicas : List Nat) :
    List String → Nat → Int → Option Int
  | [], _, minReplicas => some minReplicas
  | jobInvocationID :: rest, idx, minReplicas =>
    if jobInvocationID = invocationID then
      match Replicas.get? idx with
      | none => none
      | some granted => scanReply invocationID Replicas rest (idx + 1) (Int.ofNat granted)
    else scanReply invocationID Replicas rest (idx + 1) minReplicas

/-- The goroutines of one round, for the listed replica indices: a successful call
stores its reply in `responses[replicaID]`, a failing one sets `errorOrNot`. -/
def fanOut (calls : Nat → Option FaasReply) :
    List Nat → List FaasReply × Bool → List FaasReply × Bool
  | [], acc => acc
  | replicaID :: rest, (responses, errorOrNot) =>
    match calls replicaID with
    | none => fanOut calls rest (responses, true)
    | some response => fanOut calls rest (responses.set replicaID response, errorOrNot)

/-- The message prefix tested by `strings.HasPrefix(..., "FAILURE - mem_alloc")`. -/
def memAllocMarker : List Char := "FAILURE - mem_alloc".toList

/-- Lines 224 to 228 for the grant `minReplicas`: the entry
`localGPUSet[curDeploymentGPUID]`, the number of calls `grpcReplicas` and
`iteration_per_call`; `none` is an index or division panic. -/
def roundPlan (job : Job) (gpu_list : List Int) (specifiedReplicas minReplicas : Int) :
    Option (Int × Int × Int) :=
  let curDeploymentGPUID := job.findIndex job.localGPUSet minReplicas
  match goIndex job.localGPUSet curDeploymentGPUID with
  | none => none
  | some gpus =>
    let deploymentFuncID := min (job.findIndex job.localGPUSet gpus) ((gpu_list.length : Int) - 1)
    match goIndex gpu_list deploymentFuncID with
    | none => none
    | some gpu =>
      match goDiv gpus gpu with
      | none => none
      | some grpcReplicas =>
        match goDiv (goMul job.Iterations specifiedReplicas) gpus with
        | none => none
        | some iteration_per_call => some (gpus, grpcReplicas, iteration_per_call)

/-- The body of the loop after a non-zero grant: lines 224 to 324, from `findIndex` to
`break` or to `goto onemore`.  A replica index beyond the `common.TotalGPUs` clients of
the pool row is an index panic. -/
def executeRound (job : Job) (gpu_list : List Int) (specifiedReplicas : Int) (s : State)
    (inp : RoundInput) : RoundResult :=
  match roundPlan job gpu_list specifiedReplicas s.minReplicas with
  | none => .panicked s
  | some (gpus, grpcReplicas, iteration_per_call) =>
    if job.TotalGPUs < grpcReplicas then .panicked s
    else
      let replicaIDs := List.range grpcReplicas.toNat
      let fan := fanOut inp.calls replicaIDs (s.responses, false)
      let s1 : State :=
        { s with
          responses := fan.1
          registry := removeJobUsedResource s.registry job.invocationID
          trace := s.trace ++ replicaIDs.map Event.execute }
      if fan.2 then
        let waitBackFill := goAdd s1.waitBackFill 100
        .failed
          { s1 with
            record := { s1.record with ConnectionTimeout := true }
            waitBackFill := waitBackFill
            trace := s1.trace ++ [Event.sleepBackoff waitBackFill] }
      else
        match fan.1.head? with
        | none => .panicked s1
        | some first =>
          .ok
            { s1 with
              jobRecord :=
                registerJobRecord s1.jobRecord inp.onceCallStart
                  (Int.ofNat (first.DurationInMicroSec / 1000)) inp.sinceCallStart
                  gpus gpus s1.curIter (goAdd s1.curIter iteration_per_call)
                  job.Iterations job.BatchSize
              record :=
                { s1.record with
                  ActualDuration :=
                    (s1.record.ActualDuration + first.DurationInMicroSec / 1000)
                      % 4294967296 }
              curIter := goAdd s1.curIter iteration_per_call }

/-- One pass through the block `onemore` when a reply arrives (lines 198 to 223),
followed by the round when the grant is not zero. -/
def onemore (job : Job) (gpu_list : List Int) (specifiedReplicas : Int) (s : State)
    (inp : RoundInput) : RoundResult :=
  let s1 : State :=
    { s with
      registry :=
        removeSchedJobCount (setSchedJobCount s.registry job.invocationID) job.invocationID
      trace := s.trace ++ [Event.negotiate] }
  match scanReply job.invocationID inp.reply.Replicas inp.reply.InvocationIDs 0 (-1) with
  | none => .panicked s1
  | some minReplicas =>
    let s2 : State := { s1 with minReplicas := minReplicas }
    if minReplicas = -1 then
      .rejected { s2 with record := { s2.record with ConnectionTimeout := true } }
    else
      let s3 : State :=
        { s2 with registry := setJobUsedResource s2.registry job.invocationID minReplicas }
      if minReplicas = 0 then
        .zeroGrant { s3 with trace := s3.trace ++ [Event.sleepInterval] }
      else executeRound job gpu_list specifiedReplicas s3 inp

/-- The code after the loop (lines 327 to 345): the record is finalised from
`responses[0]` and the job state is deleted. -/
def finish (job : Job) (s : State) : Outcome :=
  match s.responses.head? with
  | none => .panicked s
  | some first =>
    let record : ExecutionRecord :=
      { s.record with
        Instance := job.extractInstanceName first.Message
        Deadline := job.Deadline
        BatchSize := job.BatchSize
        Iterations := job.Iterations }
    let record : ExecutionRecord :=
      if memAllocMarker.isPrefixOf first.Message.toList then
        { record with MemoryAllocationTimeout := true }
      else
        { record with ActualMemoryUsage := job.Kib2Mib first.GpuMemoryInMebiBytes }
    .returned true
      { s with record := record, registry := deleteValue s.registry job.invocationID }

/-- The loop `for curIter < trainingIterations` once entered: every `goto onemore`
consumes the next reply, a rejection returns `false`, and the first round without a
failing call leaves the loop through `break`. -/
def invokeLoop (job : Job) (gpu_list : List Int) (specifiedReplicas : Int) :
    List RoundInput → State → Outcome
  | [], s =>
    .blocked
      { s with
        registry := setSchedJobCount s.registry job.invocationID
        trace := s.trace ++ [Event.negotiate] }
  | inp :: rest, s =>
    match onemore job gpu_list specifiedReplicas s inp with
    | .rejected s1 => .returned false s1
    | .zeroGrant s1 => invokeLoop job gpu_list specifiedReplicas rest s1
    | .failed s1 => invokeLoop job gpu_list specifiedReplicas rest s1
    | .ok s1 => finish job s1
    | .panicked s1 => .panicked s1

/-- The state at line 119, before the connections are dialed. -/
def initialState (job : Job) (registry : Registry) : State :=
  { record :=
      { RequestedDuration := ((goMul job.Runtime 1000) % 4294967296).toNat
        ActualDuration := 0
        Instance := ""
        Deadline := 0
        BatchSize := 0
        Iterations := 0
        ActualMemoryUsage := 0
        ConnectionTimeout := false
        MemoryAllocationTimeout := false }
    jobRecord :=
      { InvocationID := job.invocationID
        StartTime := []
        Replica := []
        GpuCount := []
        ComputeTime := []
        ExecutionTime := []
        StartIteration := []
        EndIteration := []
        TotalIteration := []
        BatchSize := [] }
    registry := registry
    responses := []
    curIter := 0
    waitBackFill := 0
    minReplicas := 0
    trace := [] }

/-- The state at line 189, when the loop is reached: the connection is dialed, the job
state is registered by `setValue` and `responses` holds `common.TotalGPUs` zero
replies. -/
def dialedState (job : Job) (registry : Registry) (specifiedReplicas : Int) : State :=
  { initialState job registry with
    registry := setValue registry job.invocationID specifiedReplicas
    responses := List.replicate job.TotalGPUs.toNat FaasReply.zero }

/-- `INFlessInvoke` on the job-state tables `registry` and the replies and call results
`env`. -/
def INFlessInvoke (job : Job) (registry : Registry) (env : List RoundInput) : Outcome :=
  let s0 := initialState job registry
  match job.functions with
  | [] => .panicked s0
  | function :: _ =>
    match function.gpu with
    | none => .panicked s0
    | some gpu =>
      if function.dialErr then
        .returned true
          { s0 with
            record := { s0.record with ConnectionTimeout := true }
            registry := deleteValue s0.registry job.invocationID }
      else
        match goDiv job.BatchSize job.BszPerDevice with
        | none => .panicked s0
        | some specifiedReplicas =>
          if job.TotalGPUs < 0 then
            .panicked { s0 with registry := setValue registry job.invocationID specifiedReplicas }
          else
            let s2 := dialedState job registry specifiedReplicas
            if s2.curIter < job.Iterations then invokeLoop job [gpu] specifiedReplicas env s2
            else finish job s2

/-! ## Concrete instances used in the worked runs -/

/-- A linear search standing for the helper `findIndex`: the position of the first
occurrence, `-1` when there is none. -/
def findIndexLinear : List Int → Int → Int
  | [], _ => -1
  | x :: xs, target =>
    if x = target then 0
    else
      let i := findIndexLinear xs target
      if i = -1 then -1 else i + 1

/-- A job of 100 iterations at batch size 8 on 8 GPUs with 8 batch elements per
device, a single dialed function `...-gpu-1`, and the replica ladder 1..8. -/
def sampleJob : Job :=
  { functions := [⟨some 1, false⟩]
    invocationID := "job-0"
    Runtime := 10
    Iterations := 100
    BatchSize := 8
    Deadline := 1000
    TotalGPUs := 8
    BszPerDevice := 8
    localGPUSet := [1, 2, 3, 4, 5, 6, 7, 8]
    findIndex := findIndexLinear
    extractInstanceName := fun m => m
    Kib2Mib := fun m => m / 1024 }

/-- Job-state tables with no entry. -/
def emptyRegistry : Registry :=
  { value := fun _ => none, schedJobCount := fun _ => 0, usedResource := fun _ => none }

/-- A round input whose reply grants `granted` replicas to `sampleJob` and in which
replica `i` answers `calls i`. -/
def grantInput (granted : Nat) (calls : Nat → Option FaasReply) : RoundInput :=
  { reply := ⟨["job-9", "job-0"], [4, granted]⟩
    calls := calls
    onceCallStart := 0
    sinceCallStart := 0 }

/-- A reply of a call that went well. -/
def okReply : FaasReply := ⟨"instance-3", 5000, 10⟩

/-- A reply that reports a memory-allocation failure. -/
def memFailReply : FaasReply := ⟨"FAILURE - mem_alloc on instance-3", 5000, 0⟩

/-- A round input whose reply does not list `sampleJob`. -/
def rejectInput : RoundInput :=
  { reply := ⟨["job-9", "job-7"], [4, 2]⟩
    calls := fun _ => some okReply
    onceCallStart := 0
    sinceCallStart := 0 }

/-- The state of `sampleJob` when a grant of 2 replicas has just been read. -/
def sampleState : State :=
  { dialedState sampleJob emptyRegistry 1 with minReplicas := 2 }

/-! ## Machine integers: lemmas -/

theorem wrapInt_of_range {x : Int} (hlo : minInt ≤ x) (hhi : x ≤ maxInt) : wrapInt x = x := by
  unfold minInt at hlo
  unfold maxInt at hhi
  unfold wrapInt
  omega

theorem wrapInt_range (x : Int) : minInt ≤ wrapInt x ∧ wrapInt x ≤ maxInt := by
  unfold minInt maxInt wrapInt
  omega

theorem goDiv_of_pos {a b : Int} (ha : 0 ≤ a) (hmax : a ≤ maxInt) (hb : 0 < b) :
    goDiv a b = some (a / b) := by
  have hq : Int.tdiv a b = a / b := Int.tdiv_eq_ediv ha (le_of_lt hb)
  have h0 : 0 ≤ a / b := Int.ediv_nonneg ha (le_of_lt hb)
  have h1 : a / b ≤ a := Int.ediv_le_self b ha
  have hw : wrapInt (a / b) = a / b :=
    wrapInt_of_range (by unfold minInt; omega) (le_trans h1 hmax)
  unfold goDiv
  rw [if_neg (ne_of_gt hb), hq, hw]

theorem goDiv_isSome {a b : Int} (hb : b ≠ 0) : ∃ q, goDiv a b = some q := by
  unfold goDiv
  rw [if_neg hb]
  exact ⟨_, rfl⟩

/-! ## Replica allocation policy: the linear scan -/

theorem lowerboundReplicasToDeadline_eq_find (remainingService deadline : Int)
    (hlo : 0 ≤ remainingService) (hhi : remainingService ≤ maxInt) :
    ∀ GPUSet : List Int, (∀ r ∈ GPUSet, 0 < r) →
      lowerboundReplicasToDeadline remainingService deadline GPUSet =
        some ((GPUSet.find? (fun r => decide (remainingService / r ≤ deadline))).getD (-1))
  | [], _ => rfl
  | r :: rest, hpos => by
    have hr : 0 < r := hpos r (List.mem_cons_self r rest)
    have ih := lowerboundReplicasToDeadline_eq_find remainingService deadline hlo hhi rest
      (fun x hx => hpos x (List.mem_cons_of_mem r hx))
    unfold lowerboundReplicasToDeadline
    rw [goDiv_of_pos hlo hhi hr]
    by_cases hf : remainingService / r ≤ deadline
    · simp [hf, List.find?]
    · simp only [hf, if_false, List.find?, decide_False]
      exact ih

/-- C1: for a non-negative `remainingService`, any deadline and a GPU set of positive
replica counts, `lowerboundReplicasToDeadline` returns the first entry `r` of the set, in
scan order, with `remainingService / r <= deadline`; it returns the sentinel `-1` exactly
when no entry satisfies that, and every other result is a feasible entry of the set. -/
theorem lowerboundReplicasToDeadline_first_feasible (remainingService deadline : Int)
    (GPUSet : List Int) (hlo : 0 ≤ remainingService) (hhi : remainingService ≤ maxInt)
    (hpos : ∀ r ∈ GPUSet, 0 < r) :
    lowerboundReplicasToDeadline remainingService deadline GPUSet =
        some ((GPUSet.find? (fun r => decide (remainingService / r ≤ deadline))).getD (-1))
      ∧ (lowerboundReplicasToDeadline remainingService deadline GPUSet = some (-1) ↔
          ∀ r ∈ GPUSet, ¬ remainingService / r ≤ deadline)
      ∧ ∀ v, lowerboundReplicasToDeadline remainingService deadline GPUSet = some v →
          v = -1 ∨ (v ∈ GPUSet ∧ remainingService / v ≤ deadline) := by
  have heq := lowerboundReplicasToDeadline_eq_find remainingService deadline hlo hhi GPUSet hpos
  rw [heq]
  cases hfind : GPUSet.find? (fun r => decide (remainingService / r ≤ deadline)) with
  | none =>
    have hnone := List.find?_eq_none.mp hfind
    refine ⟨rfl, ?_, ?_⟩
    · constructor
      · intro _ r hr hfeas
        exact hnone r hr (by simpa using hfeas)
      · intro _
        rfl
    · intro v hv
      left
      simpa using hv.symm
  | some r =>
    have hmem : r ∈ GPUSet := List.mem_of_find?_eq_some hfind
    have hfeas : remainingService / r ≤ deadline := by
      simpa using List.find?_some hfind
    have hrpos : 0 < r := hpos r hmem
    refine ⟨rfl, ?_, ?_⟩
    · constructor
      · intro h
        simp only [Option.getD_some, Option.some.injEq] at h
        omega
      · intro hall
        exact absurd hfeas (hall r hmem)
    · intro v hv
      simp only [Option.getD_some, Option.some.injEq] at hv
      subst hv
      exact Or.inr ⟨hmem, hfeas⟩

/-- C1, scenario A: 1000 ms of remaining work, a deadline of 1000 ms and the GPU set
[1, 2, 4, 8] give replica count 1. -/
theorem lowerboundReplicasToDeadline_first_feasible_witness :
    lowerboundReplicasToDeadline (100 * 10) 1000 [1, 2, 4, 8] = some 1
      ∧ (lowerboundReplicasToDeadline (100 * 10) 1000 [1, 2, 4, 8] = some (-1) ↔
          ∀ r ∈ ([1, 2, 4, 8] : List Int), ¬ (100 * 10 : Int) / r ≤ 1000) :=
  ⟨by decide,
    (lowerboundReplicasToDeadline_first_feasible (100 * 10) 1000 [1, 2, 4, 8] (by decide)
      (by decide) (by decide)).2.1⟩

/-! ## Replica allocation policy: the profiled scan -/

theorem profileScan_miss (n t : Int) (profile : Int → Option SpeedInfo) (d : Int)
    (G rest : List Int) (r j : Int) (hr : profileJct n t profile r = some j) (hj : ¬ j ≤ d) :
    profileScan n t profile d G (r :: rest) = profileScan n t profile d G rest := by
  simp only [profileScan, hr, hj, if_false]

theorem profileScan_skip (n t : Int) (profile : Int → Option SpeedInfo) (d : Int)
    (G rest : List Int) :
    ∀ pre : List Int, (∀ x ∈ pre, ∃ jx, profileJct n t profile x = some jx ∧ d < jx) →
      profileScan n t profile d G (pre ++ rest) = profileScan n t profile d G rest
  | [], _ => rfl
  | x :: pre, hpre => by
    obtain ⟨jx, hjx, hlt⟩ := hpre x (List.mem_cons_self x pre)
    have ih := profileScan_skip n t profile d G rest pre
      (fun y hy => hpre y (List.mem_cons_of_mem x hy))
    rw [List.cons_append, profileScan_miss n t profile d G (pre ++ rest) x jx hjx (not_le.mpr hlt)]
    exact ih

theorem profileScan_hit (n t : Int) (profile : Int → Option SpeedInfo) (d : Int)
    (G post : List Int) (r j last : Int) (hr : profileJct n t profile r = some j) (hj : j ≤ d)
    (hlast : G.getLast? = some last) :
    profileScan n t profile d G (r :: post) = some (min (goAdd r 1) last) := by
  simp only [profileScan, hr, hj, if_true, hlast]

theorem getLast?_decompose (pre post : List Int) (r : Int) :
    ∃ last, (pre ++ r :: post).getLast? = some last ∧ last ∈ r :: post
      ∧ (post = [] → last = r) ∧ (post ≠ [] → last ∈ post) := by
  cases hpost : post.getLast? with
  | none =>
    have hnil : post = [] := List.getLast?_eq_none_iff.mp hpost
    subst hnil
    exact ⟨r, by simp, by simp, fun _ => rfl, fun h => absurd rfl h⟩
  | some l =>
    have hmem : l ∈ post := List.mem_of_getLast?_eq_some hpost
    have hne : post ≠ [] := List.ne_nil_of_mem hmem
    refine ⟨l, ?_, List.mem_cons_of_mem r hmem, fun h => absurd h hne, fun _ => hmem⟩
    obtain ⟨ys, hys⟩ := List.getLast?_eq_some_iff.mp hpost
    rw [hys]
    have : pre ++ r :: (ys ++ [l]) = (pre ++ r :: ys) ++ [l] := by simp
    rw [this]
    exact List.getLast?_concat _

/-- C2, counterexample: on the doubling GPU set [1, 2, 4, 8] with 100 iterations of
10 ms and a deadline of 500 ms the first feasible count is 2 (count 1 needs 1000 ms,
count 2 needs 500 ms), and the result is 3, which is neither the next entry 4 nor a
member of the set. -/
theorem profileSpeedMatrix_result_outside_set :
    profileJct 100 10 (fun _ => none) 1 = some 1000
      ∧ profileJct 100 10 (fun _ => none) 2 = some 500
      ∧ lowerboundReplicasToDeadlineByProfileSpeedMatrix 100 10 (fun _ => none) 500 [1, 2, 4, 8]
          = some 3
      ∧ (3 : Int) ∉ ([1, 2, 4, 8] : List Int) := by
  decide

/-- C2, amended: on a strictly increasing GPU set that starts at 1 (entries below the
largest `int`), when `r` is the first entry whose computed completion time is within the
deadline, the result is `min (r + 1) last`: the last entry when `r` is the last entry,
`r + 1` otherwise, and it is a member of the set exactly when `r` is the last entry or
the entry after `r` is `r + 1`. -/
theorem profileSpeedMatrix_first_feasible (n t : Int) (profile : Int → Option SpeedInfo)
    (d : Int) (pre post : List Int) (r j : Int)
    (hsorted : (pre ++ r :: post).Pairwise (fun a b => a < b))
    (hhead : (pre ++ r :: post).head? = some 1)
    (hmax : ∀ x ∈ pre ++ r :: post, x < maxInt)
    (hpre : ∀ x ∈ pre, ∃ jx, profileJct n t profile x = some jx ∧ d < jx)
    (hr : profileJct n t profile r = some j) (hj : j ≤ d) :
    ∃ v last,
      lowerboundReplicasToDeadlineByProfileSpeedMatrix n t profile d (pre ++ r :: post) = some v
        ∧ (pre ++ r :: post).getLast? = some last
        ∧ v = min (r + 1) last
        ∧ (post = [] → v = last)
        ∧ (post ≠ [] → v = r + 1)
        ∧ (v ∈ pre ++ r :: post ↔ post = [] ∨ post.head? = some (r + 1)) := by
  obtain ⟨last, hlast, _, hlastnil, hlastcons⟩ := getLast?_decompose pre post r
  obtain ⟨hpreS, hrS, hcross⟩ := List.pairwise_append.mp hsorted
  obtain ⟨hrpost, hpostS⟩ := List.pairwise_cons.mp hrS
  have hr1 : 1 ≤ r := by
    cases pre with
    | nil =>
      simp only [List.nil_append, List.head?_cons, Option.some.injEq] at hhead
      omega
    | cons a pre1 =>
      simp only [List.cons_append, List.head?_cons, Option.some.injEq] at hhead
      have := hcross a (List.mem_cons_self a pre1) r (List.mem_cons_self r post)
      omega
  have hrmax : r < maxInt := hmax r (by simp)
  have hadd : goAdd r 1 = r + 1 := by
    unfold goAdd
    exact wrapInt_of_range (by unfold minInt; omega) (by omega)
  have hres : lowerboundReplicasToDeadlineByProfileSpeedMatrix n t profile d (pre ++ r :: post)
      = some (min (r + 1) last) := by
    unfold lowerboundReplicasToDeadlineByProfileSpeedMatrix
    rw [profileScan_skip n t profile d _ (r :: post) pre hpre,
      profileScan_hit n t profile d _ post r j last hr hj hlast, hadd]
  refine ⟨min (r + 1) last, last, hres, hlast, rfl, ?_, ?_, ?_⟩
  · intro hnil
    rw [hlastnil hnil]
    omega
  · intro hne
    have := hrpost last (hlastcons hne)
    omega
  · cases post with
    | nil =>
      rw [hlastnil rfl]
      have : min (r + 1) r = r := by omega
      rw [this]
      simp
    | cons nxt tl =>
      have hlt := hrpost last (hlastcons (List.cons_ne_nil nxt tl))
      have hmin : min (r + 1) last = r + 1 := by omega
      rw [hmin]
      have hnxt : r < nxt := hrpost nxt (List.mem_cons_self nxt tl)
      obtain ⟨hnxttl, _⟩ := List.pairwise_cons.mp hpostS
      constructor
      · intro hmem
        right
        rcases List.mem_append.mp hmem with hin | hin
        · have := hcross (r + 1) hin r (List.mem_cons_self r _)
          omega
        · rcases List.mem_cons.mp hin with heq | hin
          · omega
          · rcases List.mem_cons.mp hin with heq | hin
            · simp [heq]
            · have := hnxttl (r + 1) hin
              omega
      · intro h
        rcases h with h | h
        · exact absurd h (List.cons_ne_nil nxt tl)
        · simp only [List.head?_cons, Option.some.injEq] at h
          subst h
          simp

/-- C2, amended, at a concrete input: on [1, 2, 4, 8] with first feasible count 2 the
result is 3 = min (2 + 1) 8. -/
theorem profileSpeedMatrix_first_feasible_witness :
    ∃ v last,
      lowerboundReplicasToDeadlineByProfileSpeedMatrix 100 10 (fun _ => none) 500
          ([1] ++ 2 :: [4, 8]) = some v
        ∧ ([1] ++ 2 :: [4, 8] : List Int).getLast? = some last
        ∧ v = min (2 + 1) last
        ∧ (([4, 8] : List Int) = [] → v = last)
        ∧ (([4, 8] : List Int) ≠ [] → v = 2 + 1)
        ∧ (v ∈ ([1] ++ 2 :: [4, 8] : List Int) ↔
            ([4, 8] : List Int) = [] ∨ ([4, 8] : List Int).head? = some (2 + 1)) :=
  profileSpeedMatrix_first_feasible 100 10 (fun _ => none) 500 [1] [4, 8] 2 500
    (by decide) (by decide) (by decide)
    (fun x hx => ⟨1000, by rw [List.mem_singleton.mp hx]; decide, by decide⟩)
    (by decide) (by decide)

theorem profileJct_isSome (n t : Int) (profile : Int → Option SpeedInfo) (r : Int)
    (hr : r ≠ 0) (hprof : ∀ si, profile r = some si → si.iteration ≠ 0) :
    ∃ j, profileJct n t profile r = some j := by
  unfold profileJct
  cases hp : profile r with
  | none => exact goDiv_isSome hr
  | some si =>
    obtain ⟨q, hq⟩ := goDiv_isSome (a := n) (hprof si hp)
    simp only [hq]
    exact goDiv_isSome hr

theorem profileScan_total (n t : Int) (profile : Int → Option SpeedInfo) (d : Int)
    (G : List Int) (last : Int) (hlast : G.getLast? = some last) (hlastpos : 0 < last) :
    ∀ rest : List Int, (∀ r ∈ rest, 0 < r ∧ r ≤ maxInt) →
      (∀ r ∈ rest, ∀ si, profile r = some si → si.iteration ≠ 0) →
      ∃ v, profileScan n t profile d G rest = some v ∧ v ≠ -1
        ∧ ((∀ r ∈ rest, ∀ j, profileJct n t profile r = some j → ¬ j ≤ d) → v = 1)
  | [], _, _ => ⟨1, rfl, by decide, fun _ => rfl⟩
  | r :: rest, hG, hprof => by
    obtain ⟨hrpos, hrmax⟩ := hG r (List.mem_cons_self r rest)
    obtain ⟨j, hjct⟩ := profileJct_isSome n t profile r (ne_of_gt hrpos)
      (hprof r (List.mem_cons_self r rest))
    obtain ⟨v, hv, hne, hone⟩ := profileScan_total n t profile d G last hlast hlastpos rest
      (fun x hx => hG x (List.mem_cons_of_mem r hx))
      (fun x hx => hprof x (List.mem_cons_of_mem r hx))
    by_cases hj : j ≤ d
    · refine ⟨min (goAdd r 1) last, profileScan_hit n t profile d G rest r j last hjct hj hlast,
        ?_, ?_⟩
      · have hw := wrapInt_range (r + 1)
        have hcases : goAdd r 1 = r + 1 ∨ goAdd r 1 = minInt := by
          unfold goAdd
          by_cases hlt : r < maxInt
          · left
            exact wrapInt_of_range (by unfold minInt; omega) (by omega)
          · right
            have : r = maxInt := by omega
            subst this
            decide
        unfold minInt at hcases
        omega
      · intro hall
        exact absurd hj (hall r (List.mem_cons_self r rest) j hjct)
    · refine ⟨v, ?_, hne, fun hall => hone (fun x hx => hall x (List.mem_cons_of_mem r hx))⟩
      rw [profileScan_miss n t profile d G rest r j hjct hj]
      exact hv

/-- C3, counterexample: a speed-profile entry with `iteration = 0` for a replica count
of the GPU set makes `GPUIteration / speedInfo.iteration` divide by zero, so the call
panics instead of returning a value. -/
theorem profileSpeedMatrix_zero_iteration_panics :
    lowerboundReplicasToDeadlineByProfileSpeedMatrix 100 10
      (fun r => if r = 1 then some ⟨0, 5⟩ else none) 500 [1] = none := by
  decide

/-- C3, amended: for every remaining-iteration count, default runtime, deadline, GPU set
of positive replica counts and speed profile whose entries for the counts of the set have
a non-zero `iteration`, `lowerboundReplicasToDeadlineByProfileSpeedMatrix` returns a
value, that value is not the sentinel `-1`, and it is `1` when no count is feasible. -/
theorem profileSpeedMatrix_never_infeasible (n t : Int) (profile : Int → Option SpeedInfo)
    (d : Int) (G : List Int) (hG : ∀ r ∈ G, 0 < r ∧ r ≤ maxInt)
    (hprof : ∀ r ∈ G, ∀ si, profile r = some si → si.iteration ≠ 0) :
    ∃ v, lowerboundReplicasToDeadlineByProfileSpeedMatrix n t profile d G = some v
      ∧ v ≠ -1
      ∧ ((∀ r ∈ G, ∀ j, profileJct n t profile r = some j → ¬ j ≤ d) → v = 1) := by
  unfold lowerboundReplicasToDeadlineByProfileSpeedMatrix
  cases hlast : G.getLast? with
  | none =>
    have hnil : G = [] := List.getLast?_eq_none_iff.mp hlast
    subst hnil
    exact ⟨1, rfl, by decide, fun _ => rfl⟩
  | some last =>
    exact profileScan_total n t profile d G last hlast
      (hG last (List.mem_of_getLast?_eq_some hlast)).1 G hG hprof

/-- C3, amended, at a concrete input: with a profile entry of 10 iterations in 50 ms
for count 2 and a deadline nothing meets, the result is 1. -/
theorem profileSpeedMatrix_never_infeasible_witness :
    ∃ v, lowerboundReplicasToDeadlineByProfileSpeedMatrix 100 10
        (fun r => if r = 2 then some ⟨10, 50⟩ else none) 5 [1, 2, 4, 8] = some v
      ∧ v ≠ -1
      ∧ ((∀ r ∈ ([1, 2, 4, 8] : List Int), ∀ j,
            profileJct 100 10 (fun r => if r = 2 then some ⟨10, 50⟩ else none) r = some j →
              ¬ j ≤ 5) → v = 1) :=
  profileSpeedMatrix_never_infeasible 100 10 (fun r => if r = 2 then some ⟨10, 50⟩ else none) 5
    [1, 2, 4, 8] (by decide)
    (fun r _ si h => by
      by_cases h2 : r = 2
      · simp only [h2, if_true, Option.some.injEq] at h
        rw [← h]
        decide
      · simp [h2] at h)

/-! ## Replica allocation policy: the GPU set -/

theorem two_pow_bound {i : Nat} (hi : i ≤ 62) :
    (1 : Int) ≤ 2 ^ i ∧ (2 : Int) ^ i ≤ 4611686018427387904 := by
  constructor
  · exact one_le_pow₀ (by norm_num)
  · calc (2 : Int) ^ i ≤ 2 ^ 62 := pow_le_pow_right₀ (by norm_num) hi
      _ = 4611686018427387904 := by norm_num

theorem goMul_two_pow {i : Nat} (hi : i + 1 ≤ 62) : goMul (2 ^ i) 2 = 2 ^ (i + 1) := by
  obtain ⟨h1, h2⟩ := two_pow_bound hi
  unfold goMul
  rw [← pow_succ]
  exact wrapInt_of_range (by unfold minInt; omega) (by unfold maxInt; omega)

theorem prepareLocalGPUSetLoop_ladder (ub : Int) (k : Nat) (hk : k ≤ 61)
    (hlo : (2 : Int) ^ k ≤ ub) (hhi : ub < 2 ^ (k + 1)) :
    ∀ (m i : Nat) (acc : List Int) (fuel : Nat), i + m = k + 1 →
      prepareLocalGPUSetLoop ub fuel (2 ^ i) acc =
        if m + 1 ≤ fuel then some (acc ++ (List.range' i m).map (fun e => (2 : Int) ^ e))
        else none
  | _, _, _, 0, _ => by simp [prepareLocalGPUSetLoop]
  | 0, i, acc, fuel + 1, him => by
    have hi : i = k + 1 := by omega
    subst hi
    simp [prepareLocalGPUSetLoop, not_le.mpr hhi]
  | m + 1, i, acc, fuel + 1, him => by
    have hik : i ≤ k := by omega
    have hle : (2 : Int) ^ i ≤ ub := le_trans (pow_le_pow_right₀ (by norm_num) hik) hlo
    have ih := prepareLocalGPUSetLoop_ladder ub k hk hlo hhi m (i + 1) (acc ++ [2 ^ i]) fuel
      (by omega)
    simp only [prepareLocalGPUSetLoop, hle, if_true, goMul_two_pow (show i + 1 ≤ 62 by omega), ih,
      List.range'_succ, List.map_cons, List.append_assoc, List.singleton_append,
      Nat.add_le_add_iff_right]

/-- C4: for every `upperBound` with `1 <= upperBound < 2^62` (the range in which the
doubling does not overflow) and every `maxGPUPerNode`, `prepareLocalGPUSet` ends and
returns exactly the ladder `1, 2, 4, ..., 2^k` with `2^k <= upperBound < 2^(k+1)`: it ends
within `k + 2` evaluations of the loop condition, and the ladder is non-empty, strictly
increasing, starts at 1 and ends at `2^k <= upperBound`. -/
theorem prepareLocalGPUSet_doubling_ladder (upperBound maxGPUPerNode : Int)
    (hlo : 1 ≤ upperBound) (hhi : upperBound < 2 ^ 62) :
    ∃ k : Nat, (2 : Int) ^ k ≤ upperBound ∧ upperBound < 2 ^ (k + 1)
      ∧ (∀ fuel, k + 2 ≤ fuel → prepareLocalGPUSet fuel upperBound maxGPUPerNode =
          some ((List.range (k + 1)).map (fun e => (2 : Int) ^ e)))
      ∧ (∀ fuel L, prepareLocalGPUSet fuel upperBound maxGPUPerNode = some L →
          L = (List.range (k + 1)).map (fun e => (2 : Int) ^ e))
      ∧ (List.range (k + 1)).map (fun e => (2 : Int) ^ e) ≠ []
      ∧ ((List.range (k + 1)).map (fun e => (2 : Int) ^ e)).Pairwise (fun a b => a < b)
      ∧ ((List.range (k + 1)).map (fun e => (2 : Int) ^ e)).head? = some 1
      ∧ ((List.range (k + 1)).map (fun e => (2 : Int) ^ e)).getLast? = some (2 ^ k) := by
  have hnat : upperBound.toNat ≠ 0 := by omega
  have hcast : (upperBound.toNat : Int) = upperBound := Int.toNat_of_nonneg (by omega)
  have h1 : (2 : Int) ^ Nat.log 2 upperBound.toNat ≤ upperBound := by
    have := Nat.pow_log_le_self 2 hnat
    rw [← hcast]
    exact_mod_cast this
  have h2 : upperBound < 2 ^ (Nat.log 2 upperBound.toNat + 1) := by
    have := Nat.lt_pow_succ_log_self (by norm_num : 1 < 2) upperBound.toNat
    rw [← hcast]
    exact_mod_cast this
  have hk : Nat.log 2 upperBound.toNat ≤ 61 := by
    have : (2 : Int) ^ Nat.log 2 upperBound.toNat < 2 ^ 62 := lt_of_le_of_lt h1 hhi
    have := (pow_lt_pow_iff_right₀ (by norm_num : (1 : Int) < 2)).mp this
    omega
  have hloop := fun fuel => prepareLocalGPUSetLoop_ladder upperBound _ hk h1 h2
    (Nat.log 2 upperBound.toNat + 1) 0 [] fuel (by omega)
  refine ⟨Nat.log 2 upperBound.toNat, h1, h2, ?_, ?_, ?_, ?_, ?_, ?_⟩
  · intro fuel hfuel
    unfold prepareLocalGPUSet
    rw [show (1 : Int) = 2 ^ 0 by norm_num, hloop fuel, if_pos (by omega), List.range_eq_range']
    rfl
  · intro fuel L hL
    unfold prepareLocalGPUSet at hL
    rw [show (1 : Int) = 2 ^ 0 by norm_num, hloop fuel] at hL
    split at hL
    · rw [List.range_eq_range']
      simpa using hL.symm
    · exact absurd hL (by simp)
  · simp
  · refine List.Pairwise.map _ ?_ (List.pairwise_lt_range _)
    intro a b hab
    exact pow_lt_pow_right₀ (by norm_num) hab
  · simp [List.head?_range]
  · simp [List.getLast?_range]

/-- C4, scenario A: the upper bound 8 gives the GPU set [1, 2, 4, 8]. -/
theorem prepareLocalGPUSet_doubling_ladder_witness :
    prepareLocalGPUSet 5 8 4 = some [1, 2, 4, 8]
      ∧ ∃ k : Nat, (2 : Int) ^ k ≤ 8 ∧ (8 : Int) < 2 ^ (k + 1)
        ∧ (∀ fuel, k + 2 ≤ fuel → prepareLocalGPUSet fuel 8 4 =
            some ((List.range (k + 1)).map (fun e => (2 : Int) ^ e)))
        ∧ (∀ fuel L, prepareLocalGPUSet fuel 8 4 = some L →
            L = (List.range (k + 1)).map (fun e => (2 : Int) ^ e))
        ∧ (List.range (k + 1)).map (fun e => (2 : Int) ^ e) ≠ []
        ∧ ((List.range (k + 1)).map (fun e => (2 : Int) ^ e)).Pairwise (fun a b => a < b)
        ∧ ((List.range (k + 1)).map (fun e => (2 : Int) ^ e)).head? = some 1
        ∧ ((List.range (k + 1)).map (fun e => (2 : Int) ^ e)).getLast? = some (2 ^ k) :=
  ⟨by decide, prepareLocalGPUSet_doubling_ladder 8 4 (by decide) (by norm_num)⟩

/-! ## Job loop controller: one round -/

theorem fanOut_snd (calls : Nat → Option FaasReply) :
    ∀ (ids : List Nat) (responses : List FaasReply) (e : Bool),
      (fanOut calls ids (responses, e)).2 = (e || ids.any (fun i => (calls i).isNone))
  | [], _, e => by simp [fanOut]
  | i :: ids, responses, e => by
    cases hc : calls i with
    | none => simp [fanOut, hc, fanOut_snd calls ids]
    | some r => simp [fanOut, hc, fanOut_snd calls ids]

theorem fanOut_length (calls : Nat → Option FaasReply) :
    ∀ (ids : List Nat) (responses : List FaasReply) (e : Bool),
      (fanOut calls ids (responses, e)).1.length = responses.length
  | [], _, _ => by simp [fanOut]
  | i :: ids, responses, e => by
    cases hc : calls i with
    | none => simp [fanOut, hc, fanOut_length calls ids]
    | some r => simp [fanOut, hc, fanOut_length calls ids]

theorem fanOut_head_of_pos (calls : Nat → Option FaasReply) :
    ∀ (ids : List Nat) (responses : List FaasReply) (e : Bool), (∀ i ∈ ids, i ≠ 0) →
      (fanOut calls ids (responses, e)).1.head? = responses.head?
  | [], _, _, _ => by simp [fanOut]
  | i :: ids, responses, e, hpos => by
    have hi : i ≠ 0 := hpos i (List.mem_cons_self i ids)
    have hrest : ∀ j ∈ ids, j ≠ 0 := fun j hj => hpos j (List.mem_cons_of_mem i hj)
    obtain ⟨k, rfl⟩ := Nat.exists_eq_succ_of_ne_zero hi
    cases hc : calls (k + 1) with
    | none => simp [fanOut, hc, fanOut_head_of_pos calls ids _ _ hrest]
    | some r =>
      simp only [fanOut, hc, fanOut_head_of_pos calls ids _ _ hrest]
      cases responses with
      | nil => rfl
      | cons a tl => rfl

theorem fanOut_no_error (calls : Nat → Option FaasReply) (n : Nat) (responses : List FaasReply)
    (hall : ∀ i, i < n → (calls i).isSome = true) :
    (fanOut calls (List.range n) (responses, false)).2 = false := by
  rw [fanOut_snd]
  simp only [Bool.false_or, List.any_eq_false, List.mem_range]
  intro i hi
  cases hc : calls i with
  | none =>
    have := hall i hi
    rw [hc] at this
    exact absurd this (by simp)
  | some r => simp

theorem fanOut_error (calls : Nat → Option FaasReply) (n : Nat) (responses : List FaasReply)
    (hfail : ∃ i, i < n ∧ calls i = none) :
    (fanOut calls (List.range n) (responses, false)).2 = true := by
  obtain ⟨i, hi, hc⟩ := hfail
  rw [fanOut_snd]
  simp only [Bool.false_or, List.any_eq_true, List.mem_range]
  exact ⟨i, hi, by simp [hc]⟩

theorem fanOut_head_first (calls : Nat → Option FaasReply) (n : Nat)
    (responses : List FaasReply) (first : FaasReply) (hn : 0 < n) (hne : responses ≠ [])
    (h0 : calls 0 = some first) :
    (fanOut calls (List.range n) (responses, false)).1.head? = some first := by
  obtain ⟨m, rfl⟩ := Nat.exists_eq_succ_of_ne_zero (Nat.pos_iff_ne_zero.mp hn)
  rw [List.range_succ_eq_map]
  simp only [fanOut, h0]
  rw [fanOut_head_of_pos calls _ _ _ (by simp)]
  cases responses with
  | nil => exact absurd rfl hne
  | cons a tl => rfl

theorem fanOut_ne_nil (calls : Nat → Option FaasReply) (ids : List Nat)
    (responses : List FaasReply) (e : Bool) (hne : responses ≠ []) :
    ∃ first, (fanOut calls ids (responses, e)).1.head? = some first := by
  have hlen := fanOut_length calls ids responses e
  cases hf : (fanOut calls ids (responses, e)).1 with
  | nil =>
    rw [hf] at hlen
    exact absurd (List.length_eq_zero.mp hlen.symm) hne
  | cons a tl => exact ⟨a, rfl⟩

theorem executeRound_ok_spec (job : Job) (gpu_list : List Int) (specifiedReplicas : Int)
    (s : State) (inp : RoundInput) (gpus grpcReplicas iteration_per_call : Int)
    (hplan : roundPlan job gpu_list specifiedReplicas s.minReplicas
      = some (gpus, grpcReplicas, iteration_per_call))
    (hcap : grpcReplicas ≤ job.TotalGPUs) (hresp : s.responses ≠ [])
    (hall : ∀ i, i < grpcReplicas.toNat → (inp.calls i).isSome = true) :
    ∃ s1 first, executeRound job gpu_list specifiedReplicas s inp = .ok s1
      ∧ s1.responses = (fanOut inp.calls (List.range grpcReplicas.toNat) (s.responses, false)).1
      ∧ s1.responses.head? = some first
      ∧ s1.jobRecord = registerJobRecord s.jobRecord inp.onceCallStart
          (Int.ofNat (first.DurationInMicroSec / 1000)) inp.sinceCallStart gpus gpus s.curIter
          (goAdd s.curIter iteration_per_call) job.Iterations job.BatchSize
      ∧ s1.curIter = goAdd s.curIter iteration_per_call
      ∧ s1.registry.value = s.registry.value
      ∧ s1.record.ConnectionTimeout = s.record.ConnectionTimeout
      ∧ s1.record.MemoryAllocationTimeout = s.record.MemoryAllocationTimeout
      ∧ s1.trace = s.trace ++ (List.range grpcReplicas.toNat).map Event.execute := by
  obtain ⟨first, hfirst⟩ :=
    fanOut_ne_nil inp.calls (List.range grpcReplicas.toNat) s.responses false hresp
  have herr := fanOut_no_error inp.calls grpcReplicas.toNat s.responses hall
  simp only [executeRound, hplan, not_lt.mpr hcap, if_false, herr, hfirst, Bool.false_eq_true]
  exact ⟨_, first, rfl, rfl, hfirst, rfl, rfl, rfl, rfl, rfl, rfl⟩

theorem executeRound_failed_spec (job : Job) (gpu_list : List Int) (specifiedReplicas : Int)
    (s : State) (inp : RoundInput) (gpus grpcReplicas iteration_per_call : Int)
    (hplan : roundPlan job gpu_list specifiedReplicas s.minReplicas
      = some (gpus, grpcReplicas, iteration_per_call))
    (hcap : grpcReplicas ≤ job.TotalGPUs)
    (hfail : ∃ i, i < grpcReplicas.toNat ∧ inp.calls i = none) :
    ∃ s1, executeRound job gpu_list specifiedReplicas s inp = .failed s1
      ∧ s1.jobRecord = s.jobRecord
      ∧ s1.curIter = s.curIter
      ∧ s1.registry.value = s.registry.value
      ∧ s1.record.ConnectionTimeout = true
      ∧ s1.trace = s.trace ++ (List.range grpcReplicas.toNat).map Event.execute
          ++ [Event.sleepBackoff (goAdd s.waitBackFill 100)] := by
  have herr := fanOut_error inp.calls grpcReplicas.toNat s.responses hfail
  simp only [executeRound, hplan, not_lt.mpr hcap, if_false, herr, if_true]
  exact ⟨_, rfl, rfl, rfl, rfl, rfl, rfl⟩

theorem executeRound_frame (job : Job) (gpu_list : List Int) (specifiedReplicas : Int)
    (s : State) (inp : RoundInput) :
    (executeRound job gpu_list specifiedReplicas s inp).state.registry.value = s.registry.value
      ∧ (executeRound job gpu_list specifiedReplicas s inp).state.responses.length
          = s.responses.length
      ∧ (∃ t, (executeRound job gpu_list specifiedReplicas s inp).state.trace = s.trace ++ t)
      ∧ (match executeRound job gpu_list specifiedReplicas s inp with
          | .ok s1 => s1.jobRecord.entries = s.jobRecord.entries + 1
          | r => r.state.jobRecord = s.jobRecord ∧ r.state.curIter = s.curIter) := by
  unfold executeRound
  split
  · exact ⟨rfl, rfl, ⟨[], by simp [RoundResult.state]⟩, rfl, rfl⟩
  · split
    · exact ⟨rfl, rfl, ⟨[], by simp [RoundResult.state]⟩, rfl, rfl⟩
    · simp only []
      split
      · refine ⟨rfl, ?_, ⟨_, List.append_assoc _ _ _⟩, rfl, rfl⟩
        simp [RoundResult.state, fanOut_length]
      · split
        · refine ⟨rfl, ?_, ⟨_, rfl⟩, rfl, rfl⟩
          simp [RoundResult.state, fanOut_length]
        · refine ⟨rfl, ?_, ⟨_, rfl⟩, ?_⟩
          · simp [RoundResult.state, fanOut_length]
          · simp [registerJobRecord, JobExecutionRecord.entries]

theorem scanReply_absent (id : String) (Replicas : List Nat) :
    ∀ (ids : List String) (idx : Nat) (m : Int), id ∉ ids →
      scanReply id Replicas ids idx m = some m
  | [], _, _, _ => rfl
  | x :: ids, idx, m, hid => by
    have hx : x ≠ id := fun h => hid (h ▸ List.mem_cons_self x ids)
    have hrest : id ∉ ids := fun h => hid (List.mem_cons_of_mem x h)
    simp only [scanReply, hx, if_false]
    exact scanReply_absent id Replicas ids (idx + 1) m hrest

theorem onemore_rejected (job : Job) (gpu_list : List Int) (specifiedReplicas : Int) (s : State)
    (inp : RoundInput) (hrej : job.invocationID ∉ inp.reply.InvocationIDs) :
    ∃ s1, onemore job gpu_list specifiedReplicas s inp = .rejected s1
      ∧ s1.record.ConnectionTimeout = true
      ∧ s1.jobRecord = s.jobRecord
      ∧ s1.curIter = s.curIter
      ∧ s1.registry.value = s.registry.value
      ∧ s1.trace = s.trace ++ [Event.negotiate] := by
  have hscan := scanReply_absent job.invocationID inp.reply.Replicas inp.reply.InvocationIDs 0
    (-1) hrej
  simp only [onemore, hscan, if_true]
  exact ⟨_, rfl, rfl, rfl, rfl, rfl, rfl⟩

theorem onemore_zeroGrant (job : Job) (gpu_list : List Int) (specifiedReplicas : Int) (s : State)
    (inp : RoundInput)
    (hz : scanReply job.invocationID inp.reply.Replicas inp.reply.InvocationIDs 0 (-1) = some 0) :
    ∃ s1, onemore job gpu_list specifiedReplicas s inp = .zeroGrant s1
      ∧ s1.record = s.record
      ∧ s1.jobRecord = s.jobRecord
      ∧ s1.curIter = s.curIter
      ∧ s1.registry.value = s.registry.value
      ∧ s1.responses = s.responses
      ∧ s1.trace = s.trace ++ [Event.negotiate, Event.sleepInterval] := by
  simp only [onemore, hz, if_true, show ¬ ((0 : Int) = -1) by decide, if_false]
  exact ⟨_, rfl, rfl, rfl, rfl, rfl, rfl, by simp⟩

theorem onemore_granted (job : Job) (gpu_list : List Int) (specifiedReplicas : Int) (s : State)
    (inp : RoundInput) (m : Int)
    (hg : scanReply job.invocationID inp.reply.Replicas inp.reply.InvocationIDs 0 (-1) = some m)
    (hm0 : m ≠ 0) (hm1 : m ≠ -1) :
    ∃ s3, onemore job gpu_list specifiedReplicas s inp
        = executeRound job gpu_list specifiedReplicas s3 inp
      ∧ s3.minReplicas = m
      ∧ s3.record = s.record
      ∧ s3.jobRecord = s.jobRecord
      ∧ s3.curIter = s.curIter
      ∧ s3.registry.value = s.registry.value
      ∧ s3.responses = s.responses
      ∧ s3.waitBackFill = s.waitBackFill
      ∧ s3.trace = s.trace ++ [Event.negotiate] := by
  simp only [onemore, hg, hm0, hm1, if_false]
  exact ⟨_, rfl, rfl, rfl, rfl, rfl, rfl, rfl, rfl, rfl⟩

theorem onemore_frame (job : Job) (gpu_list : List Int) (specifiedReplicas : Int)
    (s : State) (inp : RoundInput) :
    (onemore job gpu_list specifiedReplicas s inp).state.registry.value = s.registry.value
      ∧ (onemore job gpu_list specifiedReplicas s inp).state.responses.length = s.responses.length
      ∧ (∃ t, (onemore job gpu_list specifiedReplicas s inp).state.trace = s.trace ++ t)
      ∧ (match onemore job gpu_list specifiedReplicas s inp with
          | .ok s1 => s1.jobRecord.entries = s.jobRecord.entries + 1
          | r => r.state.jobRecord = s.jobRecord ∧ r.state.curIter = s.curIter) := by
  cases hscan : scanReply job.invocationID inp.reply.Replicas inp.reply.InvocationIDs 0 (-1) with
  | none =>
    simp only [onemore, hscan]
    exact ⟨rfl, rfl, ⟨_, rfl⟩, rfl, rfl⟩
  | some m =>
    by_cases hm1 : m = -1
    · simp only [onemore, hscan, hm1, if_true]
      exact ⟨rfl, rfl, ⟨_, rfl⟩, rfl, rfl⟩
    · by_cases hm0 : m = 0
      · simp only [onemore, hscan, hm1, hm0, if_true, if_false]
        exact ⟨rfl, rfl, ⟨_, List.append_assoc _ _ _⟩, rfl, rfl⟩
      · obtain ⟨s3, hround, _, _, hj, hc, hv, hresp, _, ht⟩ :=
          onemore_granted job gpu_list specifiedReplicas s inp m hscan hm0 hm1
        obtain ⟨h1, h2, ⟨t, h3⟩, h4⟩ := executeRound_frame job gpu_list specifiedReplicas s3 inp
        rw [hround]
        refine ⟨h1.trans hv, by rw [h2, hresp], ⟨Event.negotiate :: t, ?_⟩, ?_⟩
        · rw [h3, ht]
          simp
        · rw [hj, hc] at h4
          exact h4

theorem finish_frame (job : Job) (s : State) :
    (finish job s).state.jobRecord = s.jobRecord ∧ (finish job s).state.trace = s.trace
      ∧ (finish job s).state.curIter = s.curIter := by
  unfold finish
  split
  · exact ⟨rfl, rfl, rfl⟩
  · exact ⟨rfl, rfl, rfl⟩

theorem finish_returns (job : Job) (s : State) (first : FaasReply)
    (hfirst : s.responses.head? = some first) :
    ∃ s1, finish job s = .returned true s1
      ∧ s1.jobRecord = s.jobRecord
      ∧ s1.curIter = s.curIter
      ∧ s1.trace = s.trace
      ∧ s1.registry.value job.invocationID = none
      ∧ s1.record.ConnectionTimeout = s.record.ConnectionTimeout
      ∧ (memAllocMarker.isPrefixOf first.Message.toList = true →
          s1.record.MemoryAllocationTimeout = true)
      ∧ (memAllocMarker.isPrefixOf first.Message.toList = false →
          s1.record.MemoryAllocationTimeout = s.record.MemoryAllocationTimeout) := by
  simp only [finish, hfirst]
  refine ⟨_, rfl, rfl, rfl, rfl, ?_, ?_, ?_, ?_⟩
  · simp [deleteValue]
  · split <;> rfl
  · intro h
    rw [if_pos h]
  · intro h
    rw [if_neg (by rw [h]; exact Bool.false_ne_true)]

theorem invokeLoop_retries (job : Job) (gpu_list : List Int) (specifiedReplicas : Int) :
    ∀ (pre : List RoundInput) (s : State),
      (∀ x ∈ pre, ∀ s0, (onemore job gpu_list specifiedReplicas s0 x).isRetry = true) →
      ∃ s1, (∀ rest, invokeLoop job gpu_list specifiedReplicas (pre ++ rest) s
          = invokeLoop job gpu_list specifiedReplicas rest s1)
        ∧ s1.jobRecord = s.jobRecord
        ∧ s1.curIter = s.curIter
        ∧ s1.registry.value = s.registry.value
        ∧ s1.responses.length = s.responses.length
        ∧ ∃ t, s1.trace = s.trace ++ t
  | [], s, _ => ⟨s, fun _ => rfl, rfl, rfl, rfl, rfl, [], by simp⟩
  | x :: pre, s, hpre => by
    have hx := hpre x (List.mem_cons_self x pre) s
    have hrest : ∀ y ∈ pre, ∀ s0, (onemore job gpu_list specifiedReplicas s0 y).isRetry = true :=
      fun y hy => hpre y (List.mem_cons_of_mem x hy)
    obtain ⟨h1, h2, ⟨t, h3⟩, h4⟩ := onemore_frame job gpu_list specifiedReplicas s x
    cases hr : onemore job gpu_list specifiedReplicas s x with
    | rejected s1 => rw [hr] at hx; exact absurd hx (by simp [RoundResult.isRetry])
    | ok s1 => rw [hr] at hx; exact absurd hx (by simp [RoundResult.isRetry])
    | panicked s1 => rw [hr] at hx; exact absurd hx (by simp [RoundResult.isRetry])
    | zeroGrant s1 =>
      rw [hr] at h1 h2 h3 h4
      simp only [RoundResult.state] at h1 h2 h3 h4
      obtain ⟨s2, hloop, g1, g2, g3, g4, ⟨t2, g5⟩⟩ :=
        invokeLoop_retries job gpu_list specifiedReplicas pre s1 hrest
      refine ⟨s2, ?_, g1.trans h4.1, g2.trans h4.2, g3.trans h1, g4.trans h2, t ++ t2, ?_⟩
      · intro rest
        simp only [List.cons_append, invokeLoop, hr]
        exact hloop rest
      · rw [g5, h3, List.append_assoc]
    | failed s1 =>
      rw [hr] at h1 h2 h3 h4
      simp only [RoundResult.state] at h1 h2 h3 h4
      obtain ⟨s2, hloop, g1, g2, g3, g4, ⟨t2, g5⟩⟩ :=
        invokeLoop_retries job gpu_list specifiedReplicas pre s1 hrest
      refine ⟨s2, ?_, g1.trans h4.1, g2.trans h4.2, g3.trans h1, g4.trans h2, t ++ t2, ?_⟩
      · intro rest
        simp only [List.cons_append, invokeLoop, hr]
        exact hloop rest
      · rw [g5, h3, List.append_assoc]

theorem invokeLoop_zeroGrants (job : Job) (gpu_list : List Int) (specifiedReplicas : Int) :
    ∀ (zs : List RoundInput) (s : State),
      (∀ z ∈ zs, scanReply job.invocationID z.reply.Replicas z.reply.InvocationIDs 0 (-1)
        = some 0) →
      ∃ s1, (∀ rest, invokeLoop job gpu_list specifiedReplicas (zs ++ rest) s
          = invokeLoop job gpu_list specifiedReplicas rest s1)
        ∧ s1.record = s.record
        ∧ s1.jobRecord = s.jobRecord
        ∧ s1.curIter = s.curIter
        ∧ s1.registry.value = s.registry.value
        ∧ s1.responses = s.responses
        ∧ s1.trace = s.trace ++ zeroGrantTrace zs.length
  | [], s, _ => ⟨s, fun _ => rfl, rfl, rfl, rfl, rfl, rfl, by simp [zeroGrantTrace]⟩
  | z :: zs, s, hzs => by
    obtain ⟨s1, hr, h1, h2, h3, h4, h5, h6⟩ :=
      onemore_zeroGrant job gpu_list specifiedReplicas s z (hzs z (List.mem_cons_self z zs))
    obtain ⟨s2, hloop, g1, g2, g3, g4, g5, g6⟩ :=
      invokeLoop_zeroGrants job gpu_list specifiedReplicas zs s1
        (fun y hy => hzs y (List.mem_cons_of_mem z hy))
    refine ⟨s2, ?_, g1.trans h1, g2.trans h2, g3.trans h3, g4.trans h4, g5.trans h5, ?_⟩
    · intro rest
      simp only [List.cons_append, invokeLoop, hr]
      exact hloop rest
    · rw [g6, h6]
      simp [zeroGrantTrace]

theorem goDiv_range {a b q : Int} (h : goDiv a b = some q) : minInt ≤ q ∧ q ≤ maxInt := by
  unfold goDiv at h
  split at h
  · exact absurd h (by simp)
  · simp only [Option.some.injEq] at h
    rw [← h]
    exact wrapInt_range _

theorem roundPlan_iteration_range (job : Job) (gpu_list : List Int)
    (specifiedReplicas m gpus grpcReplicas iteration_per_call : Int)
    (hplan : roundPlan job gpu_list specifiedReplicas m
      = some (gpus, grpcReplicas, iteration_per_call)) :
    minInt ≤ iteration_per_call ∧ iteration_per_call ≤ maxInt := by
  simp only [roundPlan] at hplan
  split at hplan
  · exact absurd hplan (by simp)
  · split at hplan
    · exact absurd hplan (by simp)
    · split at hplan
      · exact absurd hplan (by simp)
      · split at hplan
        · exact absurd hplan (by simp)
        · rename_i ipc hdiv
          simp only [Option.some.injEq, Prod.mk.injEq] at hplan
          obtain ⟨_, _, rfl⟩ := hplan
          exact goDiv_range hdiv

theorem INFlessInvoke_dialed (job : Job) (registry : Registry) (env : List RoundInput)
    (f : Function) (fs : List Function) (gpu specifiedReplicas : Int)
    (hfun : job.functions = f :: fs) (hgpu : f.gpu = some gpu) (hdial : f.dialErr = false)
    (hsr : goDiv job.BatchSize job.BszPerDevice = some specifiedReplicas)
    (htotal : 0 ≤ job.TotalGPUs) (hiter : 0 < job.Iterations) :
    INFlessInvoke job registry env
      = invokeLoop job [gpu] specifiedReplicas env (dialedState job registry specifiedReplicas) := by
  have hcur : (dialedState job registry specifiedReplicas).curIter < job.Iterations := hiter
  simp only [INFlessInvoke, hfun, hgpu, hdial, hsr, not_lt.mpr htotal, if_false, hcur, if_true,
    Bool.false_eq_true]

/-! ## Job loop controller: round accounting -/

/-- C5: in an executed round with `grpcReplicas` calls (the index computations of lines
224 to 228 succeed, the pool row holds enough clients, `responses` is not empty): when
all calls succeed the round appends exactly one ledger entry, with start iteration the
old `curIter` and end iteration `curIter + iteration_per_call`, and advances `curIter` by
`iteration_per_call`; when a call returns an error the round appends nothing and leaves
`curIter` unchanged. -/
theorem executeRound_accounting (job : Job) (gpu_list : List Int) (specifiedReplicas : Int)
    (s : State) (inp : RoundInput) (gpus grpcReplicas iteration_per_call : Int)
    (hplan : roundPlan job gpu_list specifiedReplicas s.minReplicas
      = some (gpus, grpcReplicas, iteration_per_call))
    (hcap : grpcReplicas ≤ job.TotalGPUs) (hresp : s.responses ≠ []) :
    ((∀ i, i < grpcReplicas.toNat → (inp.calls i).isSome = true) →
        ∃ s1 computeTime, executeRound job gpu_list specifiedReplicas s inp = .ok s1
          ∧ s1.jobRecord = registerJobRecord s.jobRecord inp.onceCallStart computeTime
              inp.sinceCallStart gpus gpus s.curIter (goAdd s.curIter iteration_per_call)
              job.Iterations job.BatchSize
          ∧ s1.jobRecord.entries = s.jobRecord.entries + 1
          ∧ s1.jobRecord.StartIteration = s.jobRecord.StartIteration ++ [s.curIter]
          ∧ s1.jobRecord.EndIteration
              = s.jobRecord.EndIteration ++ [goAdd s.curIter iteration_per_call]
          ∧ s1.curIter = goAdd s.curIter iteration_per_call
          ∧ (minInt ≤ s.curIter + iteration_per_call → s.curIter + iteration_per_call ≤ maxInt →
              s1.curIter = s.curIter + iteration_per_call))
      ∧ ((∃ i, i < grpcReplicas.toNat ∧ inp.calls i = none) →
        ∃ s1, executeRound job gpu_list specifiedReplicas s inp = .failed s1
          ∧ s1.jobRecord = s.jobRecord
          ∧ s1.jobRecord.entries = s.jobRecord.entries
          ∧ s1.curIter = s.curIter) := by
  constructor
  · intro hall
    obtain ⟨s1, first, hok, _, _, hj, hc, _⟩ :=
      executeRound_ok_spec job gpu_list specifiedReplicas s inp gpus grpcReplicas
        iteration_per_call hplan hcap hresp hall
    refine ⟨s1, _, hok, hj, ?_, ?_, ?_, hc, ?_⟩
    · rw [hj]
      simp [registerJobRecord, JobExecutionRecord.entries]
    · rw [hj]
      rfl
    · rw [hj]
      rfl
    · intro hlo hhi
      rw [hc]
      exact wrapInt_of_range hlo hhi
  · intro hfail
    obtain ⟨s1, hf, hj, hc, _⟩ :=
      executeRound_failed_spec job gpu_list specifiedReplicas s inp gpus grpcReplicas
        iteration_per_call hplan hcap hfail
    exact ⟨s1, hf, hj, by rw [hj], hc⟩

/-- C5 at a concrete round: `sampleJob` granted 2 replicas whose two calls succeed
registers the iterations 0 to 50. -/
theorem executeRound_accounting_witness :
    ∃ s1 computeTime,
      executeRound sampleJob [1] 1 sampleState (grantInput 2 (fun _ => some okReply)) = .ok s1
        ∧ s1.jobRecord = registerJobRecord sampleState.jobRecord 0 computeTime 0 2 2
            sampleState.curIter (goAdd sampleState.curIter 50) 100 8
        ∧ s1.jobRecord.entries = sampleState.jobRecord.entries + 1
        ∧ s1.jobRecord.StartIteration = sampleState.jobRecord.StartIteration ++ [sampleState.curIter]
        ∧ s1.jobRecord.EndIteration
            = sampleState.jobRecord.EndIteration ++ [goAdd sampleState.curIter 50]
        ∧ s1.curIter = goAdd sampleState.curIter 50
        ∧ (minInt ≤ sampleState.curIter + 50 → sampleState.curIter + 50 ≤ maxInt →
            s1.curIter = sampleState.curIter + 50) :=
  (executeRound_accounting sampleJob [1] 1 sampleState (grantInput 2 (fun _ => some okReply))
    2 2 50 (by decide) (by decide) (by decide)).1 (fun _ _ => rfl)

/-! ## Job loop controller: negotiation -/

/-- C6: for a job whose connection was dialed and that reaches the loop, after any
sequence of zero-grant or failed rounds, a reply that does not list the job's
invocation ID makes `INFlessInvoke` return `false` at once (the negotiation is its last
action), with `ConnectionTimeout = true` and a ledger without any entry. -/
theorem INFlessInvoke_rejection (job : Job) (registry : Registry)
    (pre : List RoundInput) (inp : RoundInput) (rest : List RoundInput)
    (f : Function) (fs : List Function) (gpu specifiedReplicas : Int)
    (hfun : job.functions = f :: fs) (hgpu : f.gpu = some gpu) (hdial : f.dialErr = false)
    (hsr : goDiv job.BatchSize job.BszPerDevice = some specifiedReplicas)
    (htotal : 0 ≤ job.TotalGPUs) (hiter : 0 < job.Iterations)
    (hpre : ∀ x ∈ pre, ∀ s0, (onemore job [gpu] specifiedReplicas s0 x).isRetry = true)
    (hrej : job.invocationID ∉ inp.reply.InvocationIDs) :
    ∃ s, INFlessInvoke job registry (pre ++ inp :: rest) = .returned false s
      ∧ s.record.ConnectionTimeout = true
      ∧ s.jobRecord = ⟨job.invocationID, [], [], [], [], [], [], [], [], []⟩
      ∧ s.jobRecord.entries = 0
      ∧ s.curIter = 0
      ∧ s.trace.getLast? = some Event.negotiate := by
  rw [INFlessInvoke_dialed job registry _ f fs gpu specifiedReplicas hfun hgpu hdial hsr htotal
    hiter]
  obtain ⟨s1, hloop, h1, h2, _, _, _⟩ :=
    invokeLoop_retries job [gpu] specifiedReplicas pre
      (dialedState job registry specifiedReplicas) hpre
  obtain ⟨s2, hr, g1, g2, g3, _, g5⟩ := onemore_rejected job [gpu] specifiedReplicas s1 inp hrej
  have hj : s2.jobRecord = ⟨job.invocationID, [], [], [], [], [], [], [], [], []⟩ := by
    rw [g2, h1]
    rfl
  refine ⟨s2, ?_, g1, hj, by rw [hj]; rfl, by rw [g3, h2]; rfl, by rw [g5]; simp⟩
  rw [hloop (inp :: rest)]
  simp only [invokeLoop, hr]

/-- C6 at a concrete run: `sampleJob` is rejected after one zero grant and one failed
round. -/
theorem INFlessInvoke_rejection_witness :
    ∃ s, INFlessInvoke sampleJob emptyRegistry
          ([grantInput 0 (fun _ => none), grantInput 2 (fun _ => none)] ++ rejectInput :: [])
        = .returned false s
      ∧ s.record.ConnectionTimeout = true
      ∧ s.jobRecord = ⟨sampleJob.invocationID, [], [], [], [], [], [], [], [], []⟩
      ∧ s.jobRecord.entries = 0
      ∧ s.curIter = 0
      ∧ s.trace.getLast? = some Event.negotiate :=
  INFlessInvoke_rejection sampleJob emptyRegistry
    [grantInput 0 (fun _ => none), grantInput 2 (fun _ => none)] rejectInput []
    ⟨some 1, false⟩ [] 1 1 rfl rfl rfl (by decide) (by decide) (by decide)
    (fun x hx s0 => by
      simp only [List.mem_cons, List.mem_singleton, List.not_mem_nil, or_false] at hx
      rcases hx with rfl | rfl <;> rfl)
    (by decide)

/-! ## Job loop controller: zero grants -/

theorem executeRound_trace (job : Job) (gpu_list : List Int) (specifiedReplicas : Int)
    (s : State) (inp : RoundInput) (gpus grpcReplicas iteration_per_call : Int)
    (hplan : roundPlan job gpu_list specifiedReplicas s.minReplicas
      = some (gpus, grpcReplicas, iteration_per_call))
    (hcap : grpcReplicas ≤ job.TotalGPUs) :
    ∃ t, (executeRound job gpu_list specifiedReplicas s inp).state.trace
      = s.trace ++ (List.range grpcReplicas.toNat).map Event.execute ++ t := by
  simp only [executeRound, hplan, not_lt.mpr hcap, if_false]
  split
  · exact ⟨_, rfl⟩
  · split
    · exact ⟨[], by simp [RoundResult.state]⟩
    · exact ⟨[], by simp [RoundResult.state]⟩

theorem invokeLoop_trace (job : Job) (gpu_list : List Int) (specifiedReplicas : Int) :
    ∀ (env : List RoundInput) (s : State),
      ∃ t, (invokeLoop job gpu_list specifiedReplicas env s).state.trace = s.trace ++ t
  | [], s => ⟨_, rfl⟩
  | x :: env, s => by
    obtain ⟨_, _, ⟨t, h3⟩, _⟩ := onemore_frame job gpu_list specifiedReplicas s x
    cases hr : onemore job gpu_list specifiedReplicas s x with
    | rejected s1 =>
      rw [hr] at h3
      exact ⟨t, by simpa [invokeLoop, hr, Outcome.state, RoundResult.state] using h3⟩
    | panicked s1 =>
      rw [hr] at h3
      exact ⟨t, by simpa [invokeLoop, hr, Outcome.state, RoundResult.state] using h3⟩
    | ok s1 =>
      rw [hr] at h3
      simp only [RoundResult.state] at h3
      refine ⟨t, ?_⟩
      simp only [invokeLoop, hr]
      rw [(finish_frame job s1).2.1, h3]
    | zeroGrant s1 =>
      rw [hr] at h3
      simp only [RoundResult.state] at h3
      obtain ⟨t2, h⟩ := invokeLoop_trace job gpu_list specifiedReplicas env s1
      refine ⟨t ++ t2, ?_⟩
      simp only [invokeLoop, hr]
      rw [h, h3, List.append_assoc]
    | failed s1 =>
      rw [hr] at h3
      simp only [RoundResult.state] at h3
      obtain ⟨t2, h⟩ := invokeLoop_trace job gpu_list specifiedReplicas env s1
      refine ⟨t ++ t2, ?_⟩
      simp only [invokeLoop, hr]
      rw [h, h3, List.append_assoc]

theorem invokeLoop_cons_trace (job : Job) (gpu_list : List Int) (specifiedReplicas : Int)
    (x : RoundInput) (env : List RoundInput) (s : State) :
    ∃ t, (invokeLoop job gpu_list specifiedReplicas (x :: env) s).state.trace
      = (onemore job gpu_list specifiedReplicas s x).state.trace ++ t := by
  cases hr : onemore job gpu_list specifiedReplicas s x with
  | rejected s1 => exact ⟨[], by simp [invokeLoop, hr, Outcome.state, RoundResult.state]⟩
  | panicked s1 => exact ⟨[], by simp [invokeLoop, hr, Outcome.state, RoundResult.state]⟩
  | ok s1 =>
    refine ⟨[], ?_⟩
    simp only [invokeLoop, hr, RoundResult.state, List.append_nil]
    exact (finish_frame job s1).2.1
  | zeroGrant s1 =>
    obtain ⟨t, h⟩ := invokeLoop_trace job gpu_list specifiedReplicas env s1
    exact ⟨t, by simpa [invokeLoop, hr, RoundResult.state] using h⟩
  | failed s1 =>
    obtain ⟨t, h⟩ := invokeLoop_trace job gpu_list specifiedReplicas env s1
    exact ⟨t, by simpa [invokeLoop, hr, RoundResult.state] using h⟩

theorem sleepsBeforeFirstExecute_three (n : Nat) (hn : 0 < n) (t : List Event) :
    sleepsBeforeFirstExecute
      (zeroGrantTrace 3 ++ [Event.negotiate] ++ (List.range n).map Event.execute ++ t) = 3 := by
  obtain ⟨m, rfl⟩ := Nat.exists_eq_succ_of_ne_zero (Nat.pos_iff_ne_zero.mp hn)
  rw [List.range_succ_eq_map]
  simp [sleepsBeforeFirstExecute, zeroGrantTrace, Event.isExecute, List.takeWhile]

/-- C7, counterexample: when the replies grant `sampleJob` 0 replicas three times and
then 2, the controller sleeps after each of the three zero grants: three sleeps, not
two, precede the first `Execute` call. -/
theorem INFlessInvoke_three_zero_grants_three_sleeps :
    (INFlessInvoke sampleJob emptyRegistry
        [grantInput 0 (fun _ => some okReply), grantInput 0 (fun _ => some okReply),
          grantInput 0 (fun _ => some okReply), grantInput 2 (fun _ => some okReply)]).state.trace
      = [Event.negotiate, Event.sleepInterval, Event.negotiate, Event.sleepInterval,
          Event.negotiate, Event.sleepInterval, Event.negotiate, Event.execute 0,
          Event.execute 1]
    ∧ sleepsBeforeFirstExecute
        (INFlessInvoke sampleJob emptyRegistry
          [grantInput 0 (fun _ => some okReply), grantInput 0 (fun _ => some okReply),
            grantInput 0 (fun _ => some okReply),
            grantInput 2 (fun _ => some okReply)]).state.trace ≠ 2 := by
  decide

/-- C7, amended: when the replies grant the job 0 replicas in three consecutive
negotiations and then 2 (a grant the round can execute with at least one call), exactly
three zero-grant sleeps, one after each zero grant, occur before the first `Execute`
call; during the three zero-grant negotiations no `Execute` call is issued, no ledger
entry is written and `curIter` stays 0. -/
theorem INFlessInvoke_zero_grant_backoff (job : Job) (registry : Registry)
    (z1 z2 z3 g : RoundInput) (rest : List RoundInput)
    (f : Function) (fs : List Function) (gpu specifiedReplicas : Int)
    (gpus grpcReplicas iteration_per_call : Int)
    (hfun : job.functions = f :: fs) (hgpu : f.gpu = some gpu) (hdial : f.dialErr = false)
    (hsr : goDiv job.BatchSize job.BszPerDevice = some specifiedReplicas)
    (htotal : 0 ≤ job.TotalGPUs) (hiter : 0 < job.Iterations)
    (hz : ∀ z ∈ [z1, z2, z3],
      scanReply job.invocationID z.reply.Replicas z.reply.InvocationIDs 0 (-1) = some 0)
    (hg : scanReply job.invocationID g.reply.Replicas g.reply.InvocationIDs 0 (-1) = some 2)
    (hplan : roundPlan job [gpu] specifiedReplicas 2
      = some (gpus, grpcReplicas, iteration_per_call))
    (hpos : 0 < grpcReplicas) (hcap : grpcReplicas ≤ job.TotalGPUs) :
    ∃ s3 t,
      INFlessInvoke job registry (z1 :: z2 :: z3 :: g :: rest)
          = invokeLoop job [gpu] specifiedReplicas (g :: rest) s3
        ∧ s3.trace = [Event.negotiate, Event.sleepInterval, Event.negotiate,
            Event.sleepInterval, Event.negotiate, Event.sleepInterval]
        ∧ s3.curIter = 0
        ∧ s3.jobRecord.entries = 0
        ∧ (INFlessInvoke job registry (z1 :: z2 :: z3 :: g :: rest)).state.trace
            = s3.trace ++ [Event.negotiate]
                ++ (List.range grpcReplicas.toNat).map Event.execute ++ t
        ∧ sleepsBeforeFirstExecute
            (INFlessInvoke job registry (z1 :: z2 :: z3 :: g :: rest)).state.trace = 3 := by
  rw [INFlessInvoke_dialed job registry _ f fs gpu specifiedReplicas hfun hgpu hdial hsr htotal
    hiter]
  obtain ⟨s3, hloop, _, h2, h3, _, _, h6⟩ :=
    invokeLoop_zeroGrants job [gpu] specifiedReplicas [z1, z2, z3]
      (dialedState job registry specifiedReplicas) hz
  have hloop2 : invokeLoop job [gpu] specifiedReplicas (z1 :: z2 :: z3 :: g :: rest)
      (dialedState job registry specifiedReplicas)
      = invokeLoop job [gpu] specifiedReplicas (g :: rest) s3 := hloop (g :: rest)
  have htrace : s3.trace = zeroGrantTrace 3 := by
    rw [h6]
    rfl
  obtain ⟨s4, hround, hmin, _, _, _, _, _, _, ht4⟩ :=
    onemore_granted job [gpu] specifiedReplicas s3 g 2 hg (by decide) (by decide)
  obtain ⟨t1, hexec⟩ := executeRound_trace job [gpu] specifiedReplicas s4 g gpus grpcReplicas
    iteration_per_call (by rw [hmin]; exact hplan) hcap
  obtain ⟨t2, hcons⟩ := invokeLoop_cons_trace job [gpu] specifiedReplicas g rest s3
  have hfull : (invokeLoop job [gpu] specifiedReplicas (g :: rest) s3).state.trace
      = zeroGrantTrace 3 ++ [Event.negotiate]
          ++ (List.range grpcReplicas.toNat).map Event.execute ++ (t1 ++ t2) := by
    rw [hcons, hround, hexec, ht4, htrace]
    simp
  refine ⟨s3, t1 ++ t2, hloop2, htrace, ?_, ?_, ?_, ?_⟩
  · rw [h3]
    rfl
  · rw [h2]
    rfl
  · rw [hloop2, hfull, htrace]
  · rw [hloop2, hfull]
    exact sleepsBeforeFirstExecute_three _ (by omega) _

/-- C7, amended, at a concrete run: three zero grants, then a grant of 2, for
`sampleJob`. -/
theorem INFlessInvoke_zero_grant_backoff_witness :
    ∃ s3 t,
      INFlessInvoke sampleJob emptyRegistry
          (grantInput 0 (fun _ => some okReply) :: grantInput 0 (fun _ => some okReply)
            :: grantInput 0 (fun _ => some okReply) :: grantInput 2 (fun _ => some okReply) :: [])
          = invokeLoop sampleJob [1] 1 (grantInput 2 (fun _ => some okReply) :: []) s3
        ∧ s3.trace = [Event.negotiate, Event.sleepInterval, Event.negotiate,
            Event.sleepInterval, Event.negotiate, Event.sleepInterval]
        ∧ s3.curIter = 0
        ∧ s3.jobRecord.entries = 0
        ∧ (INFlessInvoke sampleJob emptyRegistry
            (grantInput 0 (fun _ => some okReply) :: grantInput 0 (fun _ => some okReply)
              :: grantInput 0 (fun _ => some okReply) :: grantInput 2 (fun _ => some okReply)
              :: [])).state.trace
            = s3.trace ++ [Event.negotiate] ++ (List.range (2 : Int).toNat).map Event.execute ++ t
        ∧ sleepsBeforeFirstExecute
            (INFlessInvoke sampleJob emptyRegistry
              (grantInput 0 (fun _ => some okReply) :: grantInput 0 (fun _ => some okReply)
                :: grantInput 0 (fun _ => some okReply) :: grantInput 2 (fun _ => some okReply)
                :: [])).state.trace = 3 :=
  INFlessInvoke_zero_grant_backoff sampleJob emptyRegistry
    (grantInput 0 (fun _ => some okReply)) (grantInput 0 (fun _ => some okReply))
    (grantInput 0 (fun _ => some okReply)) (grantInput 2 (fun _ => some okReply)) []
    ⟨some 1, false⟩ [] 1 1 2 2 50 rfl rfl rfl (by decide) (by decide) (by decide)
    (fun z hz => by
      simp only [List.mem_cons, List.mem_singleton, List.not_mem_nil, or_false] at hz
      rcases hz with rfl | rfl | rfl <;> decide)
    (by decide) (by decide) (by decide) (by decide)

/-! ## Job loop controller: memory-allocation failures -/

/-- C8, counterexample: the record is finalised from `responses[0]` alone.  When the
reply of replica 1 starts with the marker and replica 0 answers normally, the run
returns with `MemoryAllocationTimeout = false`; and when a round with a failing call
precedes the round in which replica 0 reports the marker, the run returns with
`ConnectionTimeout = true`. -/
theorem INFlessInvoke_marker_not_flagged :
    ((INFlessInvoke sampleJob emptyRegistry
          [grantInput 2 (fun i => if i = 1 then some memFailReply else some okReply)]).success?
        = some true
      ∧ (INFlessInvoke sampleJob emptyRegistry
          [grantInput 2 (fun i => if i = 1 then some memFailReply else some okReply)]
          ).state.record.MemoryAllocationTimeout = false)
    ∧ ((INFlessInvoke sampleJob emptyRegistry
          [grantInput 2 (fun i => if i = 1 then none else some okReply),
            grantInput 2 (fun i => if i = 0 then some memFailReply else some okReply)]).success?
        = some true
      ∧ (INFlessInvoke sampleJob emptyRegistry
          [grantInput 2 (fun i => if i = 1 then none else some okReply),
            grantInput 2 (fun i => if i = 0 then some memFailReply else some okReply)]
          ).state.record.ConnectionTimeout = true) := by
  decide

theorem executeRound_retry_record (job : Job) (gpu_list : List Int) (specifiedReplicas : Int)
    (s : State) (inp : RoundInput)
    (h : (executeRound job gpu_list specifiedReplicas s inp).isRetry = true) :
    (executeRound job gpu_list specifiedReplicas s inp).state.record.ConnectionTimeout = true
      ∧ (executeRound job gpu_list specifiedReplicas s inp).state.record.MemoryAllocationTimeout
          = s.record.MemoryAllocationTimeout := by
  cases hp : roundPlan job gpu_list specifiedReplicas s.minReplicas with
  | none =>
    simp only [executeRound, hp, RoundResult.isRetry] at h
    exact absurd h (by simp)
  | some plan =>
    obtain ⟨gpus, grpcReplicas, iteration_per_call⟩ := plan
    by_cases hcap : job.TotalGPUs < grpcReplicas
    · simp only [executeRound, hp, hcap, if_true, RoundResult.isRetry] at h
      exact absurd h (by simp)
    · cases hfan : (fanOut inp.calls (List.range grpcReplicas.toNat) (s.responses, false)).2 with
      | true =>
        simp [executeRound, hp, hcap, hfan, RoundResult.state]
      | false =>
        simp only [executeRound, hp, hcap, if_false, hfan, Bool.false_eq_true] at h
        split at h <;> exact absurd h (by simp [RoundResult.isRetry])

theorem onemore_retry_record (job : Job) (gpu_list : List Int) (specifiedReplicas : Int)
    (s : State) (x : RoundInput)
    (h : (onemore job gpu_list specifiedReplicas s x).isRetry = true) :
    (onemore job gpu_list specifiedReplicas s x).state.record.MemoryAllocationTimeout
        = s.record.MemoryAllocationTimeout
      ∧ (scanReply job.invocationID x.reply.Replicas x.reply.InvocationIDs 0 (-1) = some 0 →
          (onemore job gpu_list specifiedReplicas s x).state.record.ConnectionTimeout
            = s.record.ConnectionTimeout)
      ∧ (scanReply job.invocationID x.reply.Replicas x.reply.InvocationIDs 0 (-1) ≠ some 0 →
          (onemore job gpu_list specifiedReplicas s x).state.record.ConnectionTimeout = true) := by
  cases hscan : scanReply job.invocationID x.reply.Replicas x.reply.InvocationIDs 0 (-1) with
  | none =>
    simp only [onemore, hscan, RoundResult.isRetry] at h
    exact absurd h (by simp)
  | some m =>
    by_cases hm1 : m = -1
    · simp only [onemore, hscan, hm1, if_true, RoundResult.isRetry] at h
      exact absurd h (by simp)
    · by_cases hm0 : m = 0
      · obtain ⟨s1, hr, h1, _⟩ := onemore_zeroGrant job gpu_list specifiedReplicas s x
          (by rw [hscan, hm0])
        rw [hr]
        refine ⟨?_, fun _ => ?_, fun hne => absurd (by rw [hm0]) hne⟩
        · show s1.record.MemoryAllocationTimeout = _
          rw [h1]
        · show s1.record.ConnectionTimeout = _
          rw [h1]
      · obtain ⟨s3, hround, _, hrec, _⟩ :=
          onemore_granted job gpu_list specifiedReplicas s x m hscan hm0 hm1
        rw [hround] at h ⊢
        obtain ⟨e1, e2⟩ := executeRound_retry_record job gpu_list specifiedReplicas s3 x h
        refine ⟨by rw [e2, hrec], fun hz => ?_, fun _ => e1⟩
        simp only [Option.some.injEq] at hz
        exact absurd hz hm0

theorem invokeLoop_cons_retry (job : Job) (gpu_list : List Int) (specifiedReplicas : Int)
    (s : State) (x : RoundInput) (env : List RoundInput)
    (h : (onemore job gpu_list specifiedReplicas s x).isRetry = true) :
    invokeLoop job gpu_list specifiedReplicas (x :: env) s
      = invokeLoop job gpu_list specifiedReplicas env
          (onemore job gpu_list specifiedReplicas s x).state := by
  cases hr : onemore job gpu_list specifiedReplicas s x with
  | rejected s1 => rw [hr] at h; exact absurd h (by simp [RoundResult.isRetry])
  | ok s1 => rw [hr] at h; exact absurd h (by simp [RoundResult.isRetry])
  | panicked s1 => rw [hr] at h; exact absurd h (by simp [RoundResult.isRetry])
  | zeroGrant s1 => simp only [invokeLoop, hr, RoundResult.state]
  | failed s1 => simp only [invokeLoop, hr, RoundResult.state]

theorem invokeLoop_retries_record (job : Job) (gpu_list : List Int) (specifiedReplicas : Int) :
    ∀ (pre : List RoundInput) (s : State),
      (∀ x ∈ pre, ∀ s0, (onemore job gpu_list specifiedReplicas s0 x).isRetry = true) →
      ∃ s1, (∀ rest, invokeLoop job gpu_list specifiedReplicas (pre ++ rest) s
          = invokeLoop job gpu_list specifiedReplicas rest s1)
        ∧ s1.responses.length = s.responses.length
        ∧ s1.record.MemoryAllocationTimeout = s.record.MemoryAllocationTimeout
        ∧ (s1.record.ConnectionTimeout = true ↔
            s.record.ConnectionTimeout = true ∨ ∃ x ∈ pre,
              scanReply job.invocationID x.reply.Replicas x.reply.InvocationIDs 0 (-1)
                ≠ some 0)
  | [], s, _ => ⟨s, fun _ => rfl, rfl, rfl, by simp⟩
  | x :: pre, s, hpre => by
    have hx := hpre x (List.mem_cons_self x pre) s
    obtain ⟨_, hlen, _, _⟩ := onemore_frame job gpu_list specifiedReplicas s x
    obtain ⟨hmem, hzero, hfail⟩ := onemore_retry_record job gpu_list specifiedReplicas s x hx
    obtain ⟨s1, hloop, g1, g2, g3⟩ :=
      invokeLoop_retries_record job gpu_list specifiedReplicas pre
        (onemore job gpu_list specifiedReplicas s x).state
        (fun y hy => hpre y (List.mem_cons_of_mem x hy))
    refine ⟨s1, ?_, g1.trans hlen, g2.trans hmem, ?_⟩
    · intro rest
      rw [List.cons_append, invokeLoop_cons_retry job gpu_list specifiedReplicas s x _ hx]
      exact hloop rest
    · rw [g3]
      by_cases hz : scanReply job.invocationID x.reply.Replicas x.reply.InvocationIDs 0 (-1)
          = some 0
      · rw [hzero hz]
        constructor
        · rintro (h | ⟨y, hy, hne⟩)
          · exact Or.inl h
          · exact Or.inr ⟨y, List.mem_cons_of_mem x hy, hne⟩
        · rintro (h | ⟨y, hy, hne⟩)
          · exact Or.inl h
          · rcases List.mem_cons.mp hy with rfl | hy
            · exact absurd hz hne
            · exact Or.inr ⟨y, hy, hne⟩
      · rw [hfail hz]
        constructor
        · intro _
          exact Or.inr ⟨x, List.mem_cons_self x pre, hz⟩
        · intro _
          exact Or.inl rfl

/-- C8, amended: for every run in which, after any sequence of zero-grant or failed
rounds, a round is executed whose calls all succeed, `INFlessInvoke` returns `true` and
the record is flagged from the reply of replica 0 alone: `MemoryAllocationTimeout = true`
exactly when the message of replica 0 starts with the marker "FAILURE - mem_alloc"
(whatever the other replicas reply), and `ConnectionTimeout = false` exactly when every
negotiation before the executed round granted zero replicas (a failed round before it
leaves `ConnectionTimeout = true`). -/
theorem INFlessInvoke_memory_failure_flag (job : Job) (registry : Registry)
    (pre : List RoundInput) (inp : RoundInput) (rest : List RoundInput)
    (f : Function) (fs : List Function) (gpu specifiedReplicas : Int)
    (m gpus grpcReplicas iteration_per_call : Int) (first : FaasReply)
    (hfun : job.functions = f :: fs) (hgpu : f.gpu = some gpu) (hdial : f.dialErr = false)
    (hsr : goDiv job.BatchSize job.BszPerDevice = some specifiedReplicas)
    (hiter : 0 < job.Iterations)
    (hpre : ∀ x ∈ pre, ∀ s0, (onemore job [gpu] specifiedReplicas s0 x).isRetry = true)
    (hg : scanReply job.invocationID inp.reply.Replicas inp.reply.InvocationIDs 0 (-1) = some m)
    (hm : 0 < m)
    (hplan : roundPlan job [gpu] specifiedReplicas m
      = some (gpus, grpcReplicas, iteration_per_call))
    (hpos : 0 < grpcReplicas) (hcap : grpcReplicas ≤ job.TotalGPUs)
    (hall : ∀ i, i < grpcReplicas.toNat → (inp.calls i).isSome = true)
    (hfirst : inp.calls 0 = some first) :
    ∃ s, INFlessInvoke job registry (pre ++ inp :: rest) = .returned true s
      ∧ (s.record.MemoryAllocationTimeout = true ↔
          memAllocMarker.isPrefixOf first.Message.toList = true)
      ∧ (s.record.ConnectionTimeout = true ↔ ∃ x ∈ pre,
          scanReply job.invocationID x.reply.Replicas x.reply.InvocationIDs 0 (-1) ≠ some 0)
      ∧ (s.record.ConnectionTimeout = false ↔ ∀ x ∈ pre,
          scanReply job.invocationID x.reply.Replicas x.reply.InvocationIDs 0 (-1) = some 0) := by
  rw [INFlessInvoke_dialed job registry _ f fs gpu specifiedReplicas hfun hgpu hdial hsr
    (by omega) hiter]
  obtain ⟨s1, hloop, h1, h2, h3⟩ :=
    invokeLoop_retries_record job [gpu] specifiedReplicas pre
      (dialedState job registry specifiedReplicas) hpre
  obtain ⟨s2, hround, hmin, g2, _, _, _, g6, _, _⟩ :=
    onemore_granted job [gpu] specifiedReplicas s1 inp m hg (by omega) (by omega)
  have hresp : s2.responses ≠ [] := by
    intro hnil
    rw [g6] at hnil
    rw [hnil] at h1
    simp only [dialedState, List.length_nil, List.length_replicate] at h1
    omega
  obtain ⟨s3, first1, hok, e1, e2, _, _, _, e6, e7, _⟩ :=
    executeRound_ok_spec job [gpu] specifiedReplicas s2 inp gpus grpcReplicas iteration_per_call
      (by rw [hmin]; exact hplan) hcap hresp hall
  have hhead : s3.responses.head? = some first := by
    rw [e1]
    exact fanOut_head_first inp.calls grpcReplicas.toNat s2.responses first (by omega) hresp
      hfirst
  obtain ⟨s4, hfin, _, _, _, _, k5, k6, k7⟩ := finish_returns job s3 first hhead
  have hmem0 : s3.record.MemoryAllocationTimeout = false := by
    rw [e7, g2, h2]
    rfl
  have hct : s4.record.ConnectionTimeout = true ↔ ∃ x ∈ pre,
      scanReply job.invocationID x.reply.Replicas x.reply.InvocationIDs 0 (-1) ≠ some 0 := by
    rw [k5, e6, g2, h3]
    constructor
    · rintro (h | h)
      · exact absurd h (by simp [dialedState, initialState])
      · exact h
    · intro h
      exact Or.inr h
  refine ⟨s4, ?_, ?_, hct, ?_⟩
  · rw [hloop (inp :: rest)]
    simp only [invokeLoop, hround, hok]
    exact hfin
  · constructor
    · intro hflag
      by_contra hno
      have hfalse : memAllocMarker.isPrefixOf first.Message.toList = false := by
        rw [← Bool.not_eq_true]
        exact hno
      rw [k7 hfalse, hmem0] at hflag
      exact absurd hflag (by simp)
    · exact k6
  · constructor
    · intro hfalse x hx
      by_contra hne
      have := hct.mpr ⟨x, hx, hne⟩
      rw [hfalse] at this
      exact absurd this (by simp)
    · intro hall0
      cases hc : s4.record.ConnectionTimeout with
      | false => rfl
      | true =>
        obtain ⟨x, hx, hne⟩ := hct.mp hc
        exact absurd (hall0 x hx) hne

/-- C8, amended, at a concrete run: after a zero grant and a failed round, `sampleJob`
is granted 2 replicas and replica 0 reports the memory-allocation failure. -/
theorem INFlessInvoke_memory_failure_flag_witness :
    ∃ s, INFlessInvoke sampleJob emptyRegistry
          ([grantInput 0 (fun _ => none), grantInput 2 (fun _ => none)]
            ++ grantInput 2 (fun i => if i = 0 then some memFailReply else some okReply) :: [])
        = .returned true s
      ∧ (s.record.MemoryAllocationTimeout = true ↔
          memAllocMarker.isPrefixOf memFailReply.Message.toList = true)
      ∧ (s.record.ConnectionTimeout = true ↔
          ∃ x ∈ [grantInput 0 (fun _ => none), grantInput 2 (fun _ => none)],
            scanReply sampleJob.invocationID x.reply.Replicas x.reply.InvocationIDs 0 (-1)
              ≠ some 0)
      ∧ (s.record.ConnectionTimeout = false ↔
          ∀ x ∈ [grantInput 0 (fun _ => none), grantInput 2 (fun _ => none)],
            scanReply sampleJob.invocationID x.reply.Replicas x.reply.InvocationIDs 0 (-1)
              = some 0) :=
  INFlessInvoke_memory_failure_flag sampleJob emptyRegistry
    [grantInput 0 (fun _ => none), grantInput 2 (fun _ => none)]
    (grantInput 2 (fun i => if i = 0 then some memFailReply else some okReply)) []
    ⟨some 1, false⟩ [] 1 1 2 2 2 50 memFailReply rfl rfl rfl (by decide) (by decide)
    (fun x hx s0 => by
      simp only [List.mem_cons, List.mem_singleton, List.not_mem_nil, or_false] at hx
      rcases hx with rfl | rfl <;> rfl)
    (by decide) (by decide) (by decide) (by decide) (by decide)
    (fun i _ => by
      by_cases h0 : i = 0
      · simp [grantInput, h0]
      · simp [grantInput, h0])
    rfl

/-! ## Job loop controller: the job state -/

/-- C9, the failing run: `sampleJob` is dialed, `setValue` registers its state, and the
first reply does not list it.  `INFlessInvoke` returns `false` and the job still has its
entry in the table of `setValue`; the two sibling exits, the return after the loop and
the return on a failed dial, leave no entry. -/
theorem INFlessInvoke_rejection_keeps_job_state :
    (INFlessInvoke sampleJob emptyRegistry [rejectInput]).success? = some false
      ∧ (INFlessInvoke sampleJob emptyRegistry [rejectInput]).state.registry.value "job-0"
          = some 1
      ∧ (INFlessInvoke sampleJob emptyRegistry
          [grantInput 2 (fun _ => some okReply)]).success? = some true
      ∧ (INFlessInvoke sampleJob emptyRegistry
          [grantInput 2 (fun _ => some okReply)]).state.registry.value "job-0" = none
      ∧ (INFlessInvoke { sampleJob with functions := [⟨some 1, true⟩] } emptyRegistry
          []).success? = some true
      ∧ (INFlessInvoke { sampleJob with functions := [⟨some 1, true⟩] } emptyRegistry
          []).state.registry.value "job-0" = none := by
  decide

/-! ## Job loop controller: a single successful round -/

theorem invokeLoop_entries (job : Job) (gpu_list : List Int) (specifiedReplicas : Int) :
    ∀ (env : List RoundInput) (s : State),
      (invokeLoop job gpu_list specifiedReplicas env s).state.jobRecord.entries
        ≤ s.jobRecord.entries + 1
  | [], s => by simp [invokeLoop, Outcome.state]
  | x :: env, s => by
    obtain ⟨_, _, _, h4⟩ := onemore_frame job gpu_list specifiedReplicas s x
    cases hr : onemore job gpu_list specifiedReplicas s x with
    | rejected s1 =>
      rw [hr] at h4
      simp only [RoundResult.state] at h4
      simp [invokeLoop, hr, Outcome.state, h4.1]
    | panicked s1 =>
      rw [hr] at h4
      simp only [RoundResult.state] at h4
      simp [invokeLoop, hr, Outcome.state, h4.1]
    | ok s1 =>
      rw [hr] at h4
      simp only [invokeLoop, hr]
      rw [(finish_frame job s1).1, h4]
    | zeroGrant s1 =>
      rw [hr] at h4
      simp only [RoundResult.state] at h4
      have ih := invokeLoop_entries job gpu_list specifiedReplicas env s1
      rw [h4.1] at ih
      simpa [invokeLoop, hr] using ih
    | failed s1 =>
      rw [hr] at h4
      simp only [RoundResult.state] at h4
      have ih := invokeLoop_entries job gpu_list specifiedReplicas env s1
      rw [h4.1] at ih
      simpa [invokeLoop, hr] using ih

theorem INFlessInvoke_entries (job : Job) (registry : Registry) (env : List RoundInput) :
    (INFlessInvoke job registry env).state.jobRecord.entries ≤ 1 := by
  unfold INFlessInvoke
  split
  · simp [Outcome.state, initialState, JobExecutionRecord.entries]
  · split
    · simp [Outcome.state, initialState, JobExecutionRecord.entries]
    · split
      · simp [Outcome.state, initialState, JobExecutionRecord.entries]
      · split
        · simp [Outcome.state, initialState, JobExecutionRecord.entries]
        · split
          · simp [Outcome.state, initialState, JobExecutionRecord.entries]
          · simp only []
            split
            · exact invokeLoop_entries job _ _ env _
            · rw [(finish_frame job _).1]
              simp [dialedState, initialState, JobExecutionRecord.entries]

theorem INFlessInvoke_first_success (job : Job) (registry : Registry)
    (pre : List RoundInput) (inp : RoundInput) (f : Function) (fs : List Function)
    (gpu specifiedReplicas m gpus grpcReplicas iteration_per_call : Int)
    (hfun : job.functions = f :: fs) (hgpu : f.gpu = some gpu) (hdial : f.dialErr = false)
    (hsr : goDiv job.BatchSize job.BszPerDevice = some specifiedReplicas)
    (htotal : 0 < job.TotalGPUs) (hiter : 0 < job.Iterations)
    (hpre : ∀ x ∈ pre, ∀ s0, (onemore job [gpu] specifiedReplicas s0 x).isRetry = true)
    (hg : scanReply job.invocationID inp.reply.Replicas inp.reply.InvocationIDs 0 (-1) = some m)
    (hm : 0 < m)
    (hplan : roundPlan job [gpu] specifiedReplicas m
      = some (gpus, grpcReplicas, iteration_per_call))
    (hcap : grpcReplicas ≤ job.TotalGPUs)
    (hall : ∀ i, i < grpcReplicas.toNat → (inp.calls i).isSome = true) :
    ∃ s, (∀ tail, INFlessInvoke job registry (pre ++ inp :: tail) = .returned true s)
      ∧ s.jobRecord.entries = 1
      ∧ s.curIter = iteration_per_call := by
  obtain ⟨s1, hloop, h1, h2, _, h4, _⟩ :=
    invokeLoop_retries job [gpu] specifiedReplicas pre
      (dialedState job registry specifiedReplicas) hpre
  obtain ⟨s2, hround, hmin, _, g3, g4, _, g6, _, _⟩ :=
    onemore_granted job [gpu] specifiedReplicas s1 inp m hg (by omega) (by omega)
  have hresp : s2.responses ≠ [] := by
    intro hnil
    rw [g6] at hnil
    rw [hnil] at h4
    simp only [dialedState, List.length_nil, List.length_replicate] at h4
    omega
  obtain ⟨s3, first, hok, _, e2, e3, e4, _⟩ :=
    executeRound_ok_spec job [gpu] specifiedReplicas s2 inp gpus grpcReplicas iteration_per_call
      (by rw [hmin]; exact hplan) hcap hresp hall
  obtain ⟨s4, hfin, k1, k2, _⟩ := finish_returns job s3 first e2
  obtain ⟨hlo, hhi⟩ := roundPlan_iteration_range job [gpu] specifiedReplicas m gpus grpcReplicas
    iteration_per_call hplan
  refine ⟨s4, ?_, ?_, ?_⟩
  · intro tail
    rw [INFlessInvoke_dialed job registry _ f fs gpu specifiedReplicas hfun hgpu hdial hsr
      (by omega) hiter, hloop (inp :: tail)]
    simp only [invokeLoop, hround, hok]
    exact hfin
  · rw [k1, e3, g3, h1]
    rfl
  · rw [k2, e4, g4, h2]
    show goAdd 0 iteration_per_call = iteration_per_call
    unfold goAdd
    rw [zero_add]
    exact wrapInt_of_range hlo hhi

/-- C10: on every job and every sequence of replies and call results the ledger of
`INFlessInvoke` holds at most one entry; and as soon as a round has all its calls
succeed (after any zero-grant or failed rounds) the controller leaves the loop and
returns `true` with exactly one ledger entry and `curIter = iteration_per_call`, whatever
replies would follow and whether or not `curIter` has reached the job's iterations. -/
theorem INFlessInvoke_single_successful_round (job : Job) (registry : Registry)
    (env : List RoundInput) :
    (INFlessInvoke job registry env).state.jobRecord.entries ≤ 1
      ∧ ∀ (pre : List RoundInput) (inp : RoundInput) (rest : List RoundInput)
          (f : Function) (fs : List Function)
          (gpu specifiedReplicas m gpus grpcReplicas iteration_per_call : Int),
          env = pre ++ inp :: rest →
          job.functions = f :: fs → f.gpu = some gpu → f.dialErr = false →
          goDiv job.BatchSize job.BszPerDevice = some specifiedReplicas →
          0 < job.TotalGPUs → 0 < job.Iterations →
          (∀ x ∈ pre, ∀ s0, (onemore job [gpu] specifiedReplicas s0 x).isRetry = true) →
          scanReply job.invocationID inp.reply.Replicas inp.reply.InvocationIDs 0 (-1)
            = some m →
          0 < m →
          roundPlan job [gpu] specifiedReplicas m
            = some (gpus, grpcReplicas, iteration_per_call) →
          grpcReplicas ≤ job.TotalGPUs →
          (∀ i, i < grpcReplicas.toNat → (inp.calls i).isSome = true) →
          ∃ s, INFlessInvoke job registry env = .returned true s
            ∧ s.jobRecord.entries = 1
            ∧ s.curIter = iteration_per_call
            ∧ INFlessInvoke job registry (pre ++ [inp]) = .returned true s := by
  refine ⟨INFlessInvoke_entries job registry env, ?_⟩
  intro pre inp rest f fs gpu specifiedReplicas m gpus grpcReplicas iteration_per_call henv hfun
    hgpu hdial hsr htotal hiter hpre hg hm hplan hcap hall
  obtain ⟨s, hs, hentries, hcur⟩ :=
    INFlessInvoke_first_success job registry pre inp f fs gpu specifiedReplicas m gpus
      grpcReplicas iteration_per_call hfun hgpu hdial hsr htotal hiter hpre hg hm hplan hcap hall
  exact ⟨s, by rw [henv]; exact hs rest, hentries, hcur, hs []⟩

/-- C10 at a concrete run: after a zero grant and a failed round, the first round of
`sampleJob` whose calls succeed ends the run with one ledger entry and `curIter = 50` of
100 iterations; the reply that follows is never read. -/
theorem INFlessInvoke_single_successful_round_witness :
    (INFlessInvoke sampleJob emptyRegistry
        ([grantInput 0 (fun _ => none), grantInput 2 (fun _ => none)]
          ++ grantInput 2 (fun _ => some okReply)
            :: [grantInput 2 (fun _ => some okReply)])).state.jobRecord.entries ≤ 1
      ∧ ∃ s, INFlessInvoke sampleJob emptyRegistry
            ([grantInput 0 (fun _ => none), grantInput 2 (fun _ => none)]
              ++ grantInput 2 (fun _ => some okReply)
                :: [grantInput 2 (fun _ => some okReply)]) = .returned true s
          ∧ s.jobRecord.entries = 1
          ∧ s.curIter = 50
          ∧ INFlessInvoke sampleJob emptyRegistry
              ([grantInput 0 (fun _ => none), grantInput 2 (fun _ => none)]
                ++ [grantInput 2 (fun _ => some okReply)]) = .returned true s :=
  ⟨(INFlessInvoke_single_successful_round sampleJob emptyRegistry _).1,
    (INFlessInvoke_single_successful_round sampleJob emptyRegistry _).2
      [grantInput 0 (fun _ => none), grantInput 2 (fun _ => none)]
      (grantInput 2 (fun _ => some okReply)) [grantInput 2 (fun _ => some okReply)]
      ⟨some 1, false⟩ [] 1 1 2 2 2 50 rfl rfl rfl rfl (by decide) (by decide) (by decide)
      (fun x hx s0 => by
        simp only [List.mem_cons, List.mem_singleton, List.not_mem_nil, or_false] at hx
        rcases hx with rfl | rfl <;> rfl)
      (by decide) (by decide) (by decide) (by decide) (fun _ _ => rfl)⟩

/-! ## Replica allocation policy: the two scans on the default model -/

theorem profileJct_default (n t : Int) (profile : Int → Option SpeedInfo) (r : Int)
    (hprof : profile r = none) :
    profileJct n t profile r = goDiv (goMul n t) r := by
  unfold profileJct
  rw [hprof]

theorem lowerboundReplicasToDeadline_hit (remainingService deadline : Int) (rest : List Int)
    (r j : Int) (hr : goDiv remainingService r = some j) (hj : j ≤ deadline) :
    lowerboundReplicasToDeadline remainingService deadline (r :: rest) = some r := by
  simp only [lowerboundReplicasToDeadline, hr, hj, if_true]

theorem lowerboundReplicasToDeadline_miss (remainingService deadline : Int) (rest : List Int)
    (r j : Int) (hr : goDiv remainingService r = some j) (hj : ¬ j ≤ deadline) :
    lowerboundReplicasToDeadline remainingService deadline (r :: rest)
      = lowerboundReplicasToDeadline remainingService deadline rest := by
  simp only [lowerboundReplicasToDeadline, hr, hj, if_false]

theorem scans_agree_on_default (n t : Int) (profile : Int → Option SpeedInfo) (d : Int)
    (G : List Int) (last : Int) (hlast : G.getLast? = some last) :
    ∀ rest : List Int, (∀ r ∈ rest, 0 < r) → (∀ r ∈ rest, profile r = none) →
      ∃ v, lowerboundReplicasToDeadline (goMul n t) d rest = some v
        ∧ (v = -1 → profileScan n t profile d G rest = some 1)
        ∧ (v ≠ -1 → v ∈ rest ∧ profileScan n t profile d G rest = some (min (goAdd v 1) last))
  | [], _, _ => ⟨-1, rfl, fun _ => rfl, fun h => absurd rfl h⟩
  | r :: rest, hpos, hprof => by
    have hr : 0 < r := hpos r (List.mem_cons_self r rest)
    have hjct := profileJct_default n t profile r (hprof r (List.mem_cons_self r rest))
    obtain ⟨j, hj⟩ := goDiv_isSome (a := goMul n t) (ne_of_gt hr)
    by_cases hfeas : j ≤ d
    · refine ⟨r, lowerboundReplicasToDeadline_hit (goMul n t) d rest r j hj hfeas, ?_, ?_⟩
      · intro h
        omega
      · intro _
        exact ⟨List.mem_cons_self r rest,
          profileScan_hit n t profile d G rest r j last (hjct.trans hj) hfeas hlast⟩
    · obtain ⟨v, hv, h1, h2⟩ := scans_agree_on_default n t profile d G last hlast rest
        (fun x hx => hpos x (List.mem_cons_of_mem r hx))
        (fun x hx => hprof x (List.mem_cons_of_mem r hx))
      refine ⟨v, ?_, ?_, ?_⟩
      · rw [lowerboundReplicasToDeadline_miss (goMul n t) d rest r j hj hfeas]
        exact hv
      · intro h
        rw [profileScan_miss n t profile d G rest r j (hjct.trans hj) hfeas]
        exact h1 h
      · intro h
        rw [profileScan_miss n t profile d G rest r j (hjct.trans hj) hfeas]
        exact ⟨List.mem_cons_of_mem r (h2 h).1, (h2 h).2⟩

/-- C11: for a non-negative remaining-iteration count `n`, a non-negative default
runtime `t`, any deadline, a non-empty GPU set of positive counts and a speed profile
without an entry for any count of the set, both scans compute the same completion time
`(n * t) / r` for every count `r` (Go's product `n * t`, which is the mathematical one
when it fits an `int`), so they judge the same counts feasible: the linear scan on
`n * t` returns a value `v`, the profiled scan returns 1 when `v = -1`, and otherwise `v`
is a count of the set and the profiled scan returns `min (v + 1) last` (Go's `v + 1`,
the mathematical one when `v` is below the largest `int`). -/
theorem profileSpeedMatrix_default_model_agrees (n t d : Int)
    (profile : Int → Option SpeedInfo) (G : List Int)
    (hn : 0 ≤ n) (ht : 0 ≤ t) (hne : G ≠ []) (hG : ∀ r ∈ G, 0 < r)
    (hprof : ∀ r ∈ G, profile r = none) :
    (n * t ≤ maxInt → goMul n t = n * t)
      ∧ (∀ r ∈ G, profileJct n t profile r = goDiv (goMul n t) r)
      ∧ ∃ v last, lowerboundReplicasToDeadline (goMul n t) d G = some v
          ∧ G.getLast? = some last
          ∧ (v = -1 →
              lowerboundReplicasToDeadlineByProfileSpeedMatrix n t profile d G = some 1)
          ∧ (v ≠ -1 → v ∈ G
              ∧ lowerboundReplicasToDeadlineByProfileSpeedMatrix n t profile d G
                  = some (min (goAdd v 1) last)
              ∧ (v < maxInt →
                  lowerboundReplicasToDeadlineByProfileSpeedMatrix n t profile d G
                    = some (min (v + 1) last))) := by
  refine ⟨?_, fun r hr => profileJct_default n t profile r (hprof r hr), ?_⟩
  · intro hfit
    have h0 : 0 ≤ n * t := mul_nonneg hn ht
    unfold goMul
    exact wrapInt_of_range (by unfold minInt; omega) hfit
  · cases hlast : G.getLast? with
    | none => exact absurd (List.getLast?_eq_none_iff.mp hlast) hne
    | some last =>
      obtain ⟨v, hv, h1, h2⟩ := scans_agree_on_default n t profile d G last hlast G hG hprof
      refine ⟨v, last, hv, rfl, h1, fun hne1 => ⟨(h2 hne1).1, (h2 hne1).2, fun hlt => ?_⟩⟩
      have hvpos : 0 < v := hG v (h2 hne1).1
      have hadd : goAdd v 1 = v + 1 := by
        unfold goAdd
        exact wrapInt_of_range (by unfold minInt; omega) (by omega)
      rw [← hadd]
      exact (h2 hne1).2

/-- C11 at a concrete input: 100 iterations of 10 ms, a deadline of 500 ms and the set
[1, 2, 4, 8] without profile: the linear scan on 1000 returns 2 and the profiled scan
returns `min (2 + 1) 8 = 3`. -/
theorem profileSpeedMatrix_default_model_agrees_witness :
    lowerboundReplicasToDeadline (100 * 10) 500 [1, 2, 4, 8] = some 2
      ∧ lowerboundReplicasToDeadlineByProfileSpeedMatrix 100 10 (fun _ => none) 500
          [1, 2, 4, 8] = some (min (2 + 1) 8)
      ∧ ((100 * 10 : Int) ≤ maxInt → goMul 100 10 = 100 * 10)
      ∧ (∀ r ∈ ([1, 2, 4, 8] : List Int),
          profileJct 100 10 (fun _ => none) r = goDiv (goMul 100 10) r)
      ∧ ∃ v last, lowerboundReplicasToDeadline (goMul 100 10) 500 [1, 2, 4, 8] = some v
          ∧ ([1, 2, 4, 8] : List Int).getLast? = some last
          ∧ (v = -1 →
              lowerboundReplicasToDeadlineByProfileSpeedMatrix 100 10 (fun _ => none) 500
                [1, 2, 4, 8] = some 1)
          ∧ (v ≠ -1 → v ∈ ([1, 2, 4, 8] : List Int)
              ∧ lowerboundReplicasToDeadlineByProfileSpeedMatrix 100 10 (fun _ => none) 500
                  [1, 2, 4, 8] = some (min (goAdd v 1) last)
              ∧ (v < maxInt →
                  lowerboundReplicasToDeadlineByProfileSpeedMatrix 100 10 (fun _ => none) 500
                    [1, 2, 4, 8] = some (min (v + 1) last))) :=
  ⟨by decide, by decide,
    profileSpeedMatrix_default_model_agrees 100 10 500 (fun _ => none) [1, 2, 4, 8]
      (by decide) (by decide) (by decide) (by decide) (fun _ _ => rfl)⟩

end Invitro
